import Mathlib

/-!
Verification development for the cover resolution and cache engine of the
bookstats repository (`cover_cache.py`).  The Python source is shallowly
embedded: pure helpers become Lean functions on `String`/`List`, the
side-effecting methods of `CoverCache` become explicit state-passing
functions over a filesystem map plus a network-event trace, and the
`requests` transport together with the remote service's responses is an
oracle record (`Env`).  Exceptions raised by the transport or the
filesystem are modelled as explicit outcome constructors, matching the
`try/except` blocks of the source which map every failure to an absent
result.
-/

namespace BookStats

/-! ## Identity normalizer (`normalize_isbn`, `choose_best_isbn`,
`_stable_hash_key` from `cover_cache.py`) -/

/-- Characters kept by the regex `[^0-9X]` substitution in
`normalize_isbn` (applied after uppercasing). -/
def isIsbnChar (c : Char) : Bool :=
  c.isDigit || c == 'X'

/-- Python `str.strip()` on the character list of a string: drop
whitespace from both ends. -/
def pyStrip (l : List Char) : List Char :=
  ((l.dropWhile Char.isWhitespace).reverse.dropWhile Char.isWhitespace).reverse

/-- Python `str.strip()` as a string-to-string function. -/
def pyTrim (s : String) : String :=
  ⟨pyStrip s.data⟩

/-- Python `str.upper()` (ASCII case mapping, the only case the data
exercises). -/
def pyUpper (s : String) : String :=
  ⟨s.data.map Char.toUpper⟩

/-- Python `str.lower()`. -/
def pyLower (s : String) : String :=
  ⟨s.data.map Char.toLower⟩

/-- Python `s.startswith(pre)`. -/
def pyStartsWith (s pre : String) : Bool :=
  pre.data.isPrefixOf s.data

/-- Python `s[:n]`. -/
def pyTake (s : String) (n : Nat) : String :=
  ⟨s.data.take n⟩

/-- Python `s[n:]`. -/
def pyDrop (s : String) (n : Nat) : String :=
  ⟨s.data.drop n⟩

/-- `"sep".join(parts)`. -/
def pyJoin (sep : String) : List String → String
  | [] => ""
  | [p] => p
  | p :: rest => p ++ sep ++ pyJoin sep rest

/-- `normalize_isbn(isbn)`: empty input maps to `""`; otherwise strip
surrounding whitespace, uppercase, and keep only digits and `X`. -/
def normalize_isbn (s : String) : String :=
  if s = "" then ""
  else ⟨((pyStrip s.data).map Char.toUpper).filter isIsbnChar⟩

/-- The loop predicate of `choose_best_isbn`: a 13-character normalized
candidate starting with `978` or `979`. -/
def isPreferred13 (c : String) : Bool :=
  c.length == 13 && (pyStartsWith c "978" || pyStartsWith c "979")

/-- `choose_best_isbn(*candidates)`: normalize the truthy candidates,
keep lengths 10 and 13, return the first preferred 13-form, else the
first survivor, else `""`. -/
def choose_best_isbn (candidates : List String) : String :=
  let cleaned := (candidates.filter fun c => c ≠ "").map normalize_isbn
  let cleaned2 := cleaned.filter fun c => c.length == 10 || c.length == 13
  match cleaned2 with
  | [] => ""
  | c0 :: _ =>
    match cleaned2.find? isPreferred13 with
    | some c => c
    | none => c0

/-- `_stable_hash_key(*parts)`: join the stripped, lowercased parts with
`"||"`, hash, and keep the first 16 hex characters.  The SHA-1 digest is
supplied by the Python `hashlib` library, an external collaborator, so it
enters the model as the function argument `sha1hex`. -/
def stable_hash_key (sha1hex : String → String) (parts : List String) : String :=
  pyTake (sha1hex (pyJoin "||" (parts.map fun p => pyLower (pyTrim p)))) 16

/-! ## Cache key/path mapper and URL helpers -/

/-- The `(size or "L").upper()` idiom used by every path and URL helper. -/
def sizeNorm (size : String) : String :=
  pyUpper (if size = "" then "L" else size)

/-- `os.path.join(cache_dir, fname)` for a relative file name under a
directory given without a trailing separator. -/
def path_join (a b : String) : String :=
  a ++ "/" ++ b

/-- The `CoverCache` dataclass configuration.  The float `timeout_s` is
only ever forwarded to `requests.get` and is omitted from the model. -/
structure CoverCache where
  cache_dir : String
  user_agent : String := "BookStatsGUI/1.0 (+local)"
  base_search_url : String := "https://openlibrary.org/search.json"

/-- `CoverCache.cache_path_isbn`. -/
def CoverCache.cache_path_isbn (cc : CoverCache) (isbn size : String) : String :=
  path_join cc.cache_dir ("isbn_" ++ normalize_isbn isbn ++ "_" ++ sizeNorm size ++ ".jpg")

/-- `CoverCache.cache_path_coverid`. -/
def CoverCache.cache_path_coverid (cc : CoverCache) (cover_id : Int) (size : String) : String :=
  path_join cc.cache_dir ("olid_" ++ toString cover_id ++ "_" ++ sizeNorm size ++ ".jpg")

/-- `CoverCache.cache_path_query`. -/
def CoverCache.cache_path_query (cc : CoverCache) (sha1hex : String → String)
    (title author size : String) : String :=
  path_join cc.cache_dir ("q_" ++ stable_hash_key sha1hex [title, author] ++ "_" ++ sizeNorm size ++ ".jpg")

/-- The size classes the spec admits: `S`, `M`, `L`. -/
inductive SizeClass where
  | S
  | M
  | L
deriving DecidableEq

/-- The request string of a size class. -/
def SizeClass.render : SizeClass → String
  | .S => "S"
  | .M => "M"
  | .L => "L"

/-- `CoverCache.openlibrary_url_isbn` (independent of the instance). -/
def openlibrary_url_isbn (isbn size : String) : String :=
  "https://covers.openlibrary.org/b/isbn/" ++ normalize_isbn isbn ++ "-" ++ sizeNorm size
    ++ ".jpg?default=false"

/-- `CoverCache.openlibrary_url_coverid` (independent of the instance). -/
def openlibrary_url_coverid (cover_id : Int) (size : String) : String :=
  "https://covers.openlibrary.org/b/id/" ++ toString cover_id ++ "-" ++ sizeNorm size
    ++ ".jpg?default=false"

/-! ## Effect model

The side effects of `CoverCache` are HTTP requests through `requests.get`
and reads/writes of the cache directory.  A `St` value carries the cache
directory contents (path to file content) and the trace of network
requests issued so far; an `Env` value fixes, per request, what the
network and the filesystem would do.  Each `try/except`-wrapped request
has an `exn` outcome standing for any raised transport or parse error. -/

/-- One network request issued through `requests.get`, by call site:
a cover download in `_download_to`, a search in the two
`_search_openlibrary_best*` helpers, or a JSON metadata fetch in the
description helpers. -/
inductive NetEvent where
  | download (url : String)
  | search (url : String) (params : List (String × String))
  | jsonGet (url : String)
deriving DecidableEq

/-- Mutable world state: cache-file contents and the request trace. -/
structure St where
  fs : String → Option String
  trace : List NetEvent

/-- `os.path.exists(p) and os.path.getsize(p) > 0`, the validity check
applied to every cache entry. -/
def validCache (fs : String → Option String) (p : String) : Bool :=
  match fs p with
  | some content => content != ""
  | none => false

/-- Append one request to the trace. -/
def St.log (st : St) (e : NetEvent) : St :=
  { st with trace := st.trace ++ [e] }

/-- Write a downloaded body to a cache path. -/
def St.write (st : St) (p content : String) : St :=
  { st with fs := fun q => if q = p then some content else st.fs q }

/-- Outcome of a raw body download: an exception, or a status code with
the response body. -/
inductive DlOutcome where
  | exn
  | resp (status : Nat) (content : String)
deriving DecidableEq

/-- The `edition_key` field of a search document: missing, a JSON list,
or a plain string. -/
inductive EdKeys where
  | absent
  | list (l : List String)
  | str (s : String)
deriving DecidableEq

/-- One search document, with the fields the orchestrator reads.
`cover_i` is the numeric cover reference when present (non-integer JSON
values, which the source skips or treats by truthiness, are out of the
modelled value space), `isbn` the identifier list, `key` the work
reference, `edition_key` the edition reference. -/
structure SearchDoc where
  cover_i : Option Int
  isbn : Option (List String)
  key : Option String
  edition_key : EdKeys
deriving DecidableEq

/-- An entry of the `docs` array: a JSON object (`doc`) or any non-dict
value, which every loop in the source skips. -/
inductive SearchItem where
  | junk
  | doc (d : SearchDoc)
deriving DecidableEq

/-- Outcome of a search request.  `docs = none` stands for a missing or
non-list `docs` field (both helpers then produce no match); `some l` is
the received document list. -/
inductive SearchOutcome where
  | exn
  | resp (status : Nat) (docs : Option (List SearchItem))

/-- A JSON `description` field: missing, a plain string, or an object
whose `value` sub-field may hold a string. -/
inductive Desc where
  | absent
  | text (s : String)
  | obj (value : Option String)
deriving DecidableEq

/-- An entry of the `works` list of an edition record. -/
inductive WorkItem where
  | junk
  | item (key : Option String)
deriving DecidableEq

/-- The parts of a work/edition JSON record read by the source. -/
structure BookJson where
  description : Desc
  works : List WorkItem
deriving DecidableEq

/-- Outcome of a metadata JSON request. -/
inductive JsonOutcome where
  | exn
  | resp (status : Nat) (json : BookJson)

/-- The oracles: per-request network behaviour and whether opening a
cache path for writing succeeds. -/
structure Env where
  download : String → DlOutcome
  search : String → List (String × String) → SearchOutcome
  jsonGet : String → JsonOutcome
  writeOk : String → Bool

/-- `CoverCache._download_to(url, out_path, allow_404, force_refresh)`.
The whole body sits in a `try/except Exception: return None`; the `exn`
outcome and a failing write both land in that handler. -/
def download_to (env : Env) (st : St) (url out_path : String)
    (allow_404 : Bool) (force_refresh : Bool) : Option String × St :=
  if !force_refresh && validCache st.fs out_path then (some out_path, st)
  else
    let st1 := st.log (.download url)
    match env.download url with
    | .exn => (none, st1)
    | .resp status content =>
      if allow_404 && status == 404 then (none, st1)
      else if status == 200 && content != "" then
        if env.writeOk out_path then (some out_path, st1.write out_path content)
        else (none, st1)
      else (none, st1)

/-! ## Search document selection (`_search_openlibrary_best` and
`_search_openlibrary_best_extras`) -/

/-- First loop of `_search_openlibrary_best`: the first document whose
`cover_i` is a positive integer. -/
def findCoverBest : List SearchItem → Option Int
  | [] => none
  | .junk :: rest => findCoverBest rest
  | .doc d :: rest =>
    match d.cover_i with
    | some n => if 0 < n then some n else findCoverBest rest
    | none => findCoverBest rest

/-- Second loop of `_search_openlibrary_best`: the first document whose
`isbn` list is non-empty and yields a non-empty `choose_best_isbn`. -/
def findIsbnBest : List SearchItem → Option String
  | [] => none
  | .junk :: rest => findIsbnBest rest
  | .doc d :: rest =>
    match d.isbn with
    | some l =>
      if l ≠ [] then
        if choose_best_isbn l ≠ "" then some (choose_best_isbn l) else findIsbnBest rest
      else findIsbnBest rest
    | none => findIsbnBest rest

/-- The document scan of `_search_openlibrary_best` over a received
`docs` list: `(cover_id, "")`, `(None, isbn)`, or nothing. -/
def searchBestPick (items : List SearchItem) : Option (Option Int × String) :=
  match findCoverBest items with
  | some n => some (some n, "")
  | none =>
    match findIsbnBest items with
    | some best => some (none, best)
    | none => none

/-- First loop of `_search_openlibrary_best_extras`: the first document
with a truthy `cover_i` (`if d.get("cover_i"):`). -/
def findCoverExtras : List SearchItem → Option SearchDoc
  | [] => none
  | .junk :: rest => findCoverExtras rest
  | .doc d :: rest =>
    match d.cover_i with
    | some n => if n ≠ 0 then some d else findCoverExtras rest
    | none => findCoverExtras rest

/-- Second loop of `_search_openlibrary_best_extras`: the first document
with a non-empty `isbn` list. -/
def findIsbnExtras : List SearchItem → Option SearchDoc
  | [] => none
  | .junk :: rest => findIsbnExtras rest
  | .doc d :: rest =>
    match d.isbn with
    | some l => if l ≠ [] then some d else findIsbnExtras rest
    | none => findIsbnExtras rest

/-- The document scan of `_search_openlibrary_best_extras`. -/
def searchExtrasPick (items : List SearchItem) : Option SearchDoc :=
  match findCoverExtras items with
  | some d => some d
  | none => findIsbnExtras items

/-- `CoverCache._search_openlibrary_best(title, author)`.  A missing or
non-list `docs` field is folded into the empty scan, which produces the
same `None` result as the source's early return. -/
def search_openlibrary_best (cc : CoverCache) (env : Env) (st : St)
    (title author : String) : Option (Option Int × String) × St :=
  let q_title := pyTrim title
  let q_author := pyTrim author
  if q_title == "" && q_author == "" then (none, st)
  else
    let params := [("title", q_title), ("author", q_author), ("limit", "10"),
                   ("fields", "cover_i,isbn,title,author_name,first_publish_year")]
    let st1 := st.log (.search cc.base_search_url params)
    match env.search cc.base_search_url params with
    | .exn => (none, st1)
    | .resp status docs =>
      if status != 200 then (none, st1)
      else (searchBestPick (docs.getD []), st1)

/-- `CoverCache._search_openlibrary_best_extras(title, author)`; the
search URL is hardcoded here and `title`/`author` parameters are only
included when non-empty. -/
def search_openlibrary_best_extras (env : Env) (st : St)
    (title author : String) : Option SearchDoc × St :=
  let q_title := pyTrim title
  let q_author := pyTrim author
  if q_title == "" && q_author == "" then (none, st)
  else
    let params := [("limit", "10"),
        ("fields", "title,author_name,cover_i,isbn,key,edition_key,first_publish_year")]
      ++ (if q_title != "" then [("title", q_title)] else [])
      ++ (if q_author != "" then [("author", q_author)] else [])
    let st1 := st.log (.search "https://openlibrary.org/search.json" params)
    match env.search "https://openlibrary.org/search.json" params with
    | .exn => (none, st1)
    | .resp status docs =>
      if status != 200 then (none, st1)
      else
        match docs with
        | none => (none, st1)
        | some ds => if ds = [] then (none, st1) else (searchExtrasPick ds, st1)

/-! ## Metadata (description) helpers -/

/-- Shared description extraction: a plain string or an object's string
`value`, trimmed; anything else is empty. -/
def descString : Desc → String
  | .absent => ""
  | .text s => pyTrim s
  | .obj (some v) => pyTrim v
  | .obj none => ""

/-- `CoverCache._extract_description_from_work_json`. -/
def extract_description_from_work_json (j : BookJson) : String :=
  descString j.description

/-- Python `s.lstrip("/")`. -/
def lstripSlash (s : String) : String :=
  ⟨s.data.dropWhile (· == '/')⟩

/-- The character suffix after the first occurrence of a pattern, when
the pattern occurs. -/
def suffixAfter (pat : List Char) : List Char → Option (List Char)
  | [] => none
  | c :: rest =>
    if pat.isPrefixOf (c :: rest) then some ((c :: rest).drop pat.length)
    else suffixAfter pat rest

/-- Python `s.split(sep, 1)[-1]` for a non-empty separator: everything
after the first occurrence of `sep`, or the whole string when `sep` does
not occur. -/
def splitAfterFirst (s sep : String) : String :=
  match suffixAfter sep.data s.data with
  | some suf => ⟨suf⟩
  | none => s

/-- The key normalization dance opening `_fetch_work_description`:
prefix a bare `works/` form with `/`, wrap a bare id into `/works/`, and
defensively reduce a full URL to its path. -/
def workKeyNorm (work_key : String) : String :=
  let key0 := pyTrim work_key
  let key1 := if pyStartsWith key0 "works/" then "/" ++ key0 else key0
  let key2 := if !(pyStartsWith key1 "/") then "/works/" ++ key1 else key1
  if pyStartsWith key2 "http://" || pyStartsWith key2 "https://" then
    "/" ++ lstripSlash (splitAfterFirst key2 "openlibrary.org")
  else key2

/-- The key normalization opening `_fetch_edition_description`: drop a
`books/` or `/books/` prefix and any leading slashes. -/
def editionKeyNorm (edition_key : String) : String :=
  let key0 := pyTrim edition_key
  let key1 := if pyStartsWith key0 "books/" then pyDrop key0 6 else key0
  let key2 := if pyStartsWith key1 "/books/" then pyDrop key1 7 else key1
  if pyStartsWith key2 "/" then lstripSlash key2 else key2

/-- `CoverCache._fetch_work_description(work_key)`. -/
def fetch_work_description (env : Env) (st : St) (work_key : String) : String × St :=
  if work_key = "" then ("", st)
  else
    let url := "https://openlibrary.org" ++ workKeyNorm work_key ++ ".json"
    let st1 := st.log (.jsonGet url)
    match env.jsonGet url with
    | .exn => ("", st1)
    | .resp status j =>
      if status != 200 then ("", st1)
      else (extract_description_from_work_json j, st1)

/-- `CoverCache._fetch_edition_description(edition_key)`. -/
def fetch_edition_description (env : Env) (st : St) (edition_key : String) : String × St :=
  if edition_key = "" then ("", st)
  else
    let url := "https://openlibrary.org/books/" ++ editionKeyNorm edition_key ++ ".json"
    let st1 := st.log (.jsonGet url)
    match env.jsonGet url with
    | .exn => ("", st1)
    | .resp status j =>
      if status != 200 then ("", st1)
      else (descString j.description, st1)

/-- `CoverCache._fetch_description_by_isbn(isbn)`: edition lookup by
identifier, then the first work's description as fallback. -/
def fetch_description_by_isbn (env : Env) (st : St) (isbn : String) : String × St :=
  let safe := normalize_isbn isbn
  if safe = "" then ("", st)
  else
    let url := "https://openlibrary.org/isbn/" ++ safe ++ ".json"
    let st1 := st.log (.jsonGet url)
    match env.jsonGet url with
    | .exn => ("", st1)
    | .resp status j =>
      if status != 200 then ("", st1)
      else
        match j.description with
        | .text s => (s.trim, st1)
        | .obj (some v) => (v.trim, st1)
        | _ =>
          match j.works with
          | .item (some k) :: _ => fetch_work_description env st1 k
          | .item none :: _ => ("", st1)
          | .junk :: _ => ("", st1)
          | [] => ("", st1)

/-! ## Public resolution operations -/

/-- Python truthiness of an optional string (`if not title ...`). -/
def optTruthy : Option String → Bool
  | none => false
  | some s => s != ""

/-- Python `x or ""` for an optional string. -/
def pyOrEmpty : Option String → String
  | none => ""
  | some s => s

/-- `CoverCache.get_cover_path(isbn, size, force_refresh, title, author)`.
The identifier branch is followed by the title/author search fallback;
the fallback's identifier retry re-enters the function with
`title = author = none` (the source comment: avoid infinite recursion by
not passing title/author again), which is also the termination measure.
The source does not forward `force_refresh` to `_download_to` here, so
both download attempts pass the field's default `false`. -/
def get_cover_path (cc : CoverCache) (env : Env) (st : St) (isbn size : String)
    (force_refresh : Bool) (title author : Option String) : Option String × St :=
  let safe_isbn := normalize_isbn isbn
  if safe_isbn ≠ "" then
    let cached := cc.cache_path_isbn safe_isbn size
    if !force_refresh && validCache st.fs cached then (some cached, st)
    else
      let url := openlibrary_url_isbn safe_isbn size
      let r := download_to env st url cached true false
      match r.1 with
      | some p => (some p, r.2)
      | none =>
        if h : optTruthy title || optTruthy author then
          let s := search_openlibrary_best cc env r.2 (pyOrEmpty title) (pyOrEmpty author)
          match s.1 with
          | none => (none, s.2)
          | some (some cover_id, _) =>
            let cached2 := cc.cache_path_coverid cover_id size
            if !force_refresh && validCache s.2.fs cached2 then (some cached2, s.2)
            else
              let url2 := openlibrary_url_coverid cover_id size
              download_to env s.2 url2 cached2 true false
          | some (none, found_isbn) =>
            if found_isbn ≠ "" then
              get_cover_path cc env s.2 found_isbn size force_refresh none none
            else (none, s.2)
        else (none, r.2)
  else
    if h : optTruthy title || optTruthy author then
      let s := search_openlibrary_best cc env st (pyOrEmpty title) (pyOrEmpty author)
      match s.1 with
      | none => (none, s.2)
      | some (some cover_id, _) =>
        let cached2 := cc.cache_path_coverid cover_id size
        if !force_refresh && validCache s.2.fs cached2 then (some cached2, s.2)
        else
          let url2 := openlibrary_url_coverid cover_id size
          download_to env s.2 url2 cached2 true false
      | some (none, found_isbn) =>
        if found_isbn ≠ "" then
          get_cover_path cc env s.2 found_isbn size force_refresh none none
        else (none, s.2)
    else (none, st)
termination_by (optTruthy title).toNat + (optTruthy author).toNat
decreasing_by
  all_goals
    have h2 : optTruthy title = true ∨ optTruthy author = true := by simpa using h
    show (optTruthy none).toNat + (optTruthy none).toNat
        < (optTruthy title).toNat + (optTruthy author).toNat
    rcases h2 with h2 | h2 <;> rw [h2] <;> simp [optTruthy]

/-- `{'path': ..., 'summary': ...}`, the value handed to the caller. -/
structure ResolutionResult where
  path : Option String
  summary : String
deriving DecidableEq

/-- Final section of `get_cover_and_summary` (from `isbns = doc.get("isbn")`
on): try the document's identifier list, else give up with the summary. -/
def gcs_isbns (cc : CoverCache) (env : Env) (st : St) (size : String)
    (force_refresh : Bool) (d : SearchDoc) (summary : String) : ResolutionResult × St :=
  match d.isbn with
  | some l =>
    if l ≠ [] then
      if choose_best_isbn l ≠ "" then
        let out_path := cc.cache_path_isbn (choose_best_isbn l) size
        if !force_refresh && validCache st.fs out_path then
          ({ path := some out_path, summary := summary }, st)
        else
          let url := openlibrary_url_isbn (choose_best_isbn l) size
          let r := download_to env st url out_path false force_refresh
          match r.1 with
          | some p => ({ path := some p, summary := summary }, r.2)
          | none => ({ path := none, summary := summary }, r.2)
      else ({ path := none, summary := summary }, st)
    else ({ path := none, summary := summary }, st)
  | none => ({ path := none, summary := summary }, st)

/-- Cover-id section of `get_cover_and_summary` (from
`cover_i = doc.get("cover_i")` on): any integer `cover_i` is accepted
(`isinstance(cover_i, int)`, no positivity test), and a failed download
falls through to the identifier list. -/
def gcs_cover (cc : CoverCache) (env : Env) (st : St) (size : String)
    (force_refresh : Bool) (d : SearchDoc) (summary : String) : ResolutionResult × St :=
  match d.cover_i with
  | some n =>
    let out_path := cc.cache_path_coverid n size
    if !force_refresh && validCache st.fs out_path then
      ({ path := some out_path, summary := summary }, st)
    else
      let url := openlibrary_url_coverid n size
      let r := download_to env st url out_path false force_refresh
      match r.1 with
      | some p => ({ path := some p, summary := summary }, r.2)
      | none => gcs_isbns cc env r.2 size force_refresh d summary
  | none => gcs_isbns cc env st size force_refresh d summary

/-- Fallback section of `get_cover_and_summary` (from
`doc = self._search_openlibrary_best_extras(...)` on): search, then
optionally replace the summary by the document's work/edition
description (`_fetch_work_description(wk) or
_fetch_edition_description(edk)`), then try the document's cover. -/
def gcs_fallback (cc : CoverCache) (env : Env) (st : St) (size title author : String)
    (force_refresh want_summary : Bool) (isbn_summary : String) : ResolutionResult × St :=
  let s := search_openlibrary_best_extras env st title author
  match s.1 with
  | none => ({ path := none, summary := isbn_summary }, s.2)
  | some d =>
    let w :=
      if want_summary then
        let wk := d.key.getD ""
        let edk :=
          match d.edition_key with
          | .list (x :: _) => x
          | .list [] => ""
          | .str e => e
          | .absent => ""
        let fw := fetch_work_description env s.2 wk
        if fw.1 ≠ "" then fw else fetch_edition_description env fw.2 edk
      else (isbn_summary, s.2)
    gcs_cover cc env w.2 size force_refresh d w.1

/-- `CoverCache.get_cover_and_summary(isbn, size, title, author,
force_refresh, want_summary)`.  The identifier branch forwards
`force_refresh` to `_download_to` (without `allow_404`); on a miss it
still fetches a description by identifier before falling back. -/
def get_cover_and_summary (cc : CoverCache) (env : Env) (st : St)
    (isbn size title author : String) (force_refresh want_summary : Bool) :
    ResolutionResult × St :=
  let safe_isbn := normalize_isbn isbn
  if safe_isbn ≠ "" then
    let out_path := cc.cache_path_isbn safe_isbn size
    if !force_refresh && validCache st.fs out_path then
      let sm := if want_summary then fetch_description_by_isbn env st safe_isbn else ("", st)
      ({ path := some out_path, summary := sm.1 }, sm.2)
    else
      let url := openlibrary_url_isbn safe_isbn size
      let r := download_to env st url out_path false force_refresh
      match r.1 with
      | some p =>
        let sm := if want_summary then fetch_description_by_isbn env r.2 safe_isbn else ("", r.2)
        ({ path := some p, summary := sm.1 }, sm.2)
      | none =>
        let sm := if want_summary then fetch_description_by_isbn env r.2 safe_isbn else ("", r.2)
        gcs_fallback cc env sm.2 size title author force_refresh want_summary sm.1
  else
    gcs_fallback cc env st size title author force_refresh want_summary ""

/-! ## Trace observations -/

/-- Is the event a cover-body download (a `_download_to` transport
invocation)? -/
def isDownloadEv : NetEvent → Bool
  | .download _ => true
  | _ => false

/-- Is the event a search request? -/
def isSearchEv : NetEvent → Bool
  | .search _ _ => true
  | _ => false

/-- Number of `_download_to` transport invocations in a trace. -/
def dlCount (l : List NetEvent) : Nat :=
  (l.filter isDownloadEv).length

/-- Number of search requests in a trace. -/
def searchCount (l : List NetEvent) : Nat :=
  (l.filter isSearchEv).length

/-- The search requests of a trace, as URL and parameter list. -/
def searchEventsOf (l : List NetEvent) : List (String × List (String × String)) :=
  l.filterMap fun e =>
    match e with
    | .search u ps => some (u, ps)
    | _ => none

/-- Traces extended only by metadata JSON requests. -/
def onlyJson (Δ : List NetEvent) : Prop :=
  ∀ e ∈ Δ, ∃ u, e = NetEvent.jsonGet u

/-- Traces extended only by download requests. -/
def onlyDl (Δ : List NetEvent) : Prop :=
  ∀ e ∈ Δ, ∃ u, e = NetEvent.download u

/-- The search-request shape every `_search_openlibrary_best` call has:
the configured search URL, limit 10, and its five-name field list. -/
def goodBestSearch (cc : CoverCache) (e : String × List (String × String)) : Prop :=
  e.1 = cc.base_search_url ∧ ("limit", "10") ∈ e.2
    ∧ ("fields", "cover_i,isbn,title,author_name,first_publish_year") ∈ e.2

/-- The search-request shape every `_search_openlibrary_best_extras`
call has: the hardcoded search URL, limit 10, and its seven-name field
list. -/
def goodExtrasSearch (e : String × List (String × String)) : Prop :=
  e.1 = "https://openlibrary.org/search.json" ∧ ("limit", "10") ∈ e.2
    ∧ ("fields", "title,author_name,cover_i,isbn,key,edition_key,first_publish_year") ∈ e.2

/-! ## Specification-side definitions

These are worded from `spec.md` (and the claims derived from it), for
comparison against the source-side definitions above. -/

/-- Modelled from the spec: `chooseBest` normalizes every candidate,
discards lengths other than 10 and 13, returns the first 13-length
candidate starting with `978`/`979` wherever it occurs, else the first
survivor in input order, else the empty string. -/
def chooseBestSpec (candidates : List String) : String :=
  let kept := (candidates.map normalize_isbn).filter fun c => c.length == 10 || c.length == 13
  match kept.find? (fun c => c.length == 13 && (pyStartsWith c "978" || pyStartsWith c "979")) with
  | some c => c
  | none => kept.headD ""

/-- Modelled from the spec (§4.3 Transport, §7 error taxonomy): the
result of one fetch that reaches the network.  A raised transport or
filesystem error and every response other than a successful one collapse
to absent (this covers HTTP 404 whether or not the allow-404 flag is
set, since 404 is never the success status); a success — HTTP 200 with a
non-empty body whose write succeeds — yields the destination path. -/
def fetchSpec (o : DlOutcome) (out : String) (writeOk : Bool) : Option String :=
  match o with
  | .exn => none
  | .resp status content =>
    if status = 200 ∧ content ≠ "" ∧ writeOk = true then some out else none

/-- A document whose cover reference is a positive integer (the
condition of `_search_openlibrary_best`'s first loop). -/
def hasPosCover : SearchItem → Bool
  | .junk => false
  | .doc d =>
    match d.cover_i with
    | some n => decide (0 < n)
    | none => false

/-- A document whose cover reference is truthy (the condition of
`_search_openlibrary_best_extras`'s first loop). -/
def hasTruthyCover : SearchItem → Bool
  | .junk => false
  | .doc d =>
    match d.cover_i with
    | some n => decide (n ≠ 0)
    | none => false

/-- The cover reference of a document item. -/
def itemCover : SearchItem → Option Int
  | .junk => none
  | .doc d => d.cover_i

/-- The document payload of an item. -/
def itemDoc : SearchItem → Option SearchDoc
  | .junk => none
  | .doc d => some d

/-- The best identifier a document's identifier list yields. -/
def bestIsbnOf : SearchItem → String
  | .junk => ""
  | .doc d =>
    match d.isbn with
    | some l => if l ≠ [] then choose_best_isbn l else ""
    | none => ""

/-- A document with a non-empty identifier list. -/
def hasIsbnList : SearchItem → Bool
  | .junk => false
  | .doc d =>
    match d.isbn with
    | some l => decide (l ≠ [])
    | none => false

/-- First-match formulation of the `_search_openlibrary_best` document
scan: the first document with a positive integer cover reference wins;
otherwise the first document whose identifier list yields a non-empty
best candidate wins. -/
def bestPickSpec (items : List SearchItem) : Option (Option Int × String) :=
  match items.find? hasPosCover with
  | some i => some (itemCover i, "")
  | none =>
    match items.find? (fun i => bestIsbnOf i != "") with
    | some i => some (none, bestIsbnOf i)
    | none => none

/-- First-match formulation of the `_search_openlibrary_best_extras`
document scan: the first document with a truthy cover reference wins;
otherwise the first document with a non-empty identifier list wins. -/
def extrasPickSpec (items : List SearchItem) : Option SearchDoc :=
  match items.find? hasTruthyCover with
  | some i => itemDoc i
  | none =>
    match items.find? hasIsbnList with
    | some i => itemDoc i
    | none => none

/-! ## Helper lemmas -/

theorem isbnChar_not_ws (c : Char) (h : isIsbnChar c = true) : c.isWhitespace = false := by
  have h2 : c.isDigit = true ∨ c = 'X' := by simpa [isIsbnChar] using h
  rcases h2 with hd | hx
  · by_contra hw
    simp only [Bool.not_eq_false] at hw
    simp only [Char.isWhitespace, Bool.or_eq_true, decide_eq_true_eq] at hw
    rcases hw with ((h1 | h1) | h1) | h1 <;> subst h1 <;> simp [Char.isDigit] at hd
  · subst hx; decide

theorem isbnChar_toUpper (c : Char) (h : isIsbnChar c = true) : c.toUpper = c := by
  have h2 : c.isDigit = true ∨ c = 'X' := by simpa [isIsbnChar] using h
  rcases h2 with hd | hx
  · simp only [Char.isDigit, Bool.and_eq_true, decide_eq_true_eq] at hd
    obtain ⟨h1, h2⟩ := hd
    have hle : c.toNat ≤ 57 := h2
    unfold Char.toUpper
    rw [if_neg]
    omega
  · subst hx; decide

theorem dropWhile_ws_eq_self (l : List Char) (h : ∀ c ∈ l, c.isWhitespace = false) :
    l.dropWhile Char.isWhitespace = l := by
  cases l with
  | nil => rfl
  | cons c t =>
    rw [List.dropWhile_cons_of_neg]
    simp [h c (List.mem_cons_self c t)]

theorem pyStrip_eq_self (l : List Char) (h : ∀ c ∈ l, c.isWhitespace = false) :
    pyStrip l = l := by
  unfold pyStrip
  rw [dropWhile_ws_eq_self l h, dropWhile_ws_eq_self, List.reverse_reverse]
  intro c hc
  exact h c (List.mem_reverse.1 hc)

theorem map_eq_self_of_fix (l : List Char) (f : Char → Char) (h : ∀ c ∈ l, f c = c) :
    l.map f = l := by
  induction l with
  | nil => rfl
  | cons c t ih =>
    simp only [List.map_cons, h c (List.mem_cons_self c t), List.cons.injEq, true_and]
    exact ih fun x hx => h x (List.mem_cons_of_mem c hx)

theorem normalize_isbn_idem (s : String) :
    normalize_isbn (normalize_isbn s) = normalize_isbn s := by
  by_cases h0 : s = ""
  · simp [normalize_isbn, h0]
  · by_cases h1 : normalize_isbn s = ""
    · rw [h1]; simp [normalize_isbn]
    · have hdata : (normalize_isbn s).data
          = ((pyStrip s.data).map Char.toUpper).filter isIsbnChar := by
        simp [normalize_isbn, h0]
      have hmem : ∀ c ∈ (normalize_isbn s).data, isIsbnChar c = true := by
        intro c hc
        rw [hdata] at hc
        exact (List.mem_filter.1 hc).2
      conv_lhs => rw [normalize_isbn, if_neg h1]
      rw [pyStrip_eq_self _ (fun c hc => isbnChar_not_ws c (hmem c hc))]
      rw [map_eq_self_of_fix _ _ (fun c hc => isbnChar_toUpper c (hmem c hc))]
      rw [List.filter_eq_self.2 hmem]

/-! ## Claims -/

/-- C7: `normalize_isbn` is idempotent: normalizing an already-normalized
identifier yields the same value, for every input string. -/
theorem c7_normalize_isbn_idempotent (x : String) :
    normalize_isbn (normalize_isbn x) = normalize_isbn x :=
  normalize_isbn_idem x

theorem filter_map_filter {p q : String → Bool} (f : String → String)
    (h : ∀ x, q x = false → p (f x) = false) (l : List String) :
    ((l.filter q).map f).filter p = (l.map f).filter p := by
  induction l with
  | nil => rfl
  | cons c t ih =>
    cases hq : q c with
    | false =>
      rw [List.filter_cons_of_neg (by simp [hq]), List.map_cons,
        List.filter_cons_of_neg (by simp [h c hq]), ih]
    | true =>
      rw [List.filter_cons_of_pos hq, List.map_cons, List.map_cons]
      simp only [List.filter_cons, ih]

/-- C6: `choose_best_isbn` agrees everywhere with the specification's
`chooseBest`: normalize all candidates, keep lengths 10/13, prefer the
first 978/979-prefixed 13-form anywhere in the input, else the first
survivor in input order, else the empty string. -/
theorem c6_choose_best_isbn_spec (candidates : List String) :
    choose_best_isbn candidates = chooseBestSpec candidates := by
  simp only [choose_best_isbn, chooseBestSpec]
  rw [filter_map_filter normalize_isbn]
  · have hpred : isPreferred13
        = fun c => c.length == 13 && (pyStartsWith c "978" || pyStartsWith c "979") := rfl
    rw [hpred]
    rcases hk : (candidates.map normalize_isbn).filter
        (fun c => c.length == 10 || c.length == 13) with _ | ⟨c0, t⟩ <;> rw [hk]
    · rfl
    · cases hf : List.find?
          (fun c => c.length == 13 && (pyStartsWith c "978" || pyStartsWith c "979"))
          (c0 :: t) <;> simp [hf]
  · intro x hx
    have hx2 : x = "" := by
      by_contra hne
      simp [hne] at hx
    subst hx2
    decide

theorem findCoverBest_eq (items : List SearchItem) :
    findCoverBest items = (items.find? hasPosCover).bind itemCover := by
  induction items with
  | nil => rfl
  | cons i rest ih =>
    cases i with
    | junk => simpa [findCoverBest, List.find?_cons, hasPosCover] using ih
    | doc d =>
      cases hc : d.cover_i with
      | none => simpa [findCoverBest, List.find?_cons, hasPosCover, hc] using ih
      | some n =>
        by_cases hn : 0 < n
        · simp [findCoverBest, List.find?_cons, hasPosCover, hc, hn, itemCover]
        · simpa [findCoverBest, List.find?_cons, hasPosCover, hc, hn] using ih

theorem findIsbnBest_eq (items : List SearchItem) :
    findIsbnBest items = (items.find? fun i => bestIsbnOf i != "").map bestIsbnOf := by
  induction items with
  | nil => rfl
  | cons i rest ih =>
    cases i with
    | junk => simpa [findIsbnBest, List.find?_cons, bestIsbnOf] using ih
    | doc d =>
      cases hl : d.isbn with
      | none => simpa [findIsbnBest, List.find?_cons, bestIsbnOf, hl] using ih
      | some l =>
        by_cases hne : l = []
        · subst hne
          simpa [findIsbnBest, List.find?_cons, bestIsbnOf, hl] using ih
        · by_cases hb : choose_best_isbn l = ""
          · simpa [findIsbnBest, List.find?_cons, bestIsbnOf, hl, hne, hb] using ih
          · simp [findIsbnBest, List.find?_cons, bestIsbnOf, hl, hne, hb]

theorem findCoverExtras_eq (items : List SearchItem) :
    findCoverExtras items = (items.find? hasTruthyCover).bind itemDoc := by
  induction items with
  | nil => rfl
  | cons i rest ih =>
    cases i with
    | junk => simpa [findCoverExtras, List.find?_cons, hasTruthyCover] using ih
    | doc d =>
      cases hc : d.cover_i with
      | none => simpa [findCoverExtras, List.find?_cons, hasTruthyCover, hc] using ih
      | some n =>
        by_cases hn : n = 0
        · subst hn
          simpa [findCoverExtras, List.find?_cons, hasTruthyCover, hc] using ih
        · simp [findCoverExtras, List.find?_cons, hasTruthyCover, hc, hn, itemDoc]

theorem findIsbnExtras_eq (items : List SearchItem) :
    findIsbnExtras items = (items.find? hasIsbnList).bind itemDoc := by
  induction items with
  | nil => rfl
  | cons i rest ih =>
    cases i with
    | junk => simpa [findIsbnExtras, List.find?_cons, hasIsbnList] using ih
    | doc d =>
      cases hl : d.isbn with
      | none => simpa [findIsbnExtras, List.find?_cons, hasIsbnList, hl] using ih
      | some l =>
        by_cases hne : l = []
        · subst hne
          simpa [findIsbnExtras, List.find?_cons, hasIsbnList, hl] using ih
        · simp [findIsbnExtras, List.find?_cons, hasIsbnList, hl, hne, itemDoc]

/-- C3 (counterexample): the claim fails for `_search_openlibrary_best` on
a document list where the first identifier-bearing document's list yields
no valid candidate: the returned identifier comes from the second
document, although the first document of the list has a non-empty
identifier list (and is the one the claim designates, as the `find?`
conjunct shows). -/
theorem c3_counterexample :
    searchBestPick
        [SearchItem.doc ⟨none, some ["foo"], none, .absent⟩,
         SearchItem.doc ⟨none, some ["9780140449136"], none, .absent⟩]
      = some (none, "9780140449136")
    ∧ [SearchItem.doc ⟨none, some ["foo"], none, .absent⟩,
       SearchItem.doc ⟨none, some ["9780140449136"], none, .absent⟩].find? hasIsbnList
      = some (.doc ⟨none, some ["foo"], none, .absent⟩)
    ∧ "9780140449136" ∉ ["foo"] := by
  refine ⟨by decide, by decide, by decide⟩

/-- C3 (amended): in the order received, a positive-integer cover
reference wins in `_search_openlibrary_best` (a truthy one in
`_search_openlibrary_best_extras`); only when no document has one,
`_search_openlibrary_best` selects the first document whose identifier
list yields a non-empty best candidate and returns that candidate, while
`_search_openlibrary_best_extras` selects the first document with a
non-empty identifier list; when no document qualifies the result is
nothing found. -/
theorem c3_search_selection_order (items : List SearchItem) :
    searchBestPick items = bestPickSpec items
    ∧ searchExtrasPick items = extrasPickSpec items := by
  constructor
  · simp only [searchBestPick, bestPickSpec, findCoverBest_eq, findIsbnBest_eq]
    cases hf : items.find? hasPosCover with
    | some i =>
      have hp := List.find?_some hf
      cases i with
      | junk => simp [hasPosCover] at hp
      | doc d =>
        cases hc : d.cover_i with
        | none => simp [hasPosCover, hc] at hp
        | some n => simp [itemCover, hc]
    | none =>
      cases hg : items.find? (fun i => bestIsbnOf i != "") with
      | some i => simp
      | none => simp
  · simp only [searchExtrasPick, extrasPickSpec, findCoverExtras_eq, findIsbnExtras_eq]
    cases hf : items.find? hasTruthyCover with
    | some i =>
      have hp := List.find?_some hf
      cases i with
      | junk => simp [hasTruthyCover] at hp
      | doc d => simp [itemDoc]
    | none =>
      cases hg : items.find? hasIsbnList with
      | some i =>
        have hp := List.find?_some hg
        cases i with
        | junk => simp [hasIsbnList] at hp
        | doc d => simp [itemDoc]
      | none => simp

theorem string_append_cancel_left (a b c : String) (h : a ++ b = a ++ c) : b = c := by
  have h2 := congrArg String.data h
  rw [String.data_append, String.data_append] at h2
  have h3 := List.append_cancel_left h2
  cases b; cases c
  exact congrArg String.mk h3

theorem path_join_cancel (d f1 f2 : String) (h : path_join d f1 = path_join d f2) :
    f1 = f2 :=
  string_append_cancel_left (d ++ "/") f1 f2 h

theorem path_ne_of_fname_ne (d : String) {f1 f2 : String} (h : f1 ≠ f2) :
    path_join d f1 ≠ path_join d f2 :=
  fun he => h (path_join_cancel d f1 f2 he)

theorem isbn_olid_ne (x y : String) : "isbn_" ++ x ≠ "olid_" ++ y := by
  intro he
  have h2 := congrArg String.data he
  rw [String.data_append, String.data_append] at h2
  rw [show "isbn_".data = ['i','s','b','n','_'] from rfl,
      show "olid_".data = ['o','l','i','d','_'] from rfl] at h2
  simp at h2

theorem isbn_q_ne (x y : String) : "isbn_" ++ x ≠ "q_" ++ y := by
  intro he
  have h2 := congrArg String.data he
  rw [String.data_append, String.data_append] at h2
  rw [show "isbn_".data = ['i','s','b','n','_'] from rfl,
      show "q_".data = ['q','_'] from rfl] at h2
  simp at h2

theorem olid_q_ne (x y : String) : "olid_" ++ x ≠ "q_" ++ y := by
  intro he
  have h2 := congrArg String.data he
  rw [String.data_append, String.data_append] at h2
  rw [show "olid_".data = ['o','l','i','d','_'] from rfl,
      show "q_".data = ['q','_'] from rfl] at h2
  simp at h2

theorem sizeNorm_render (s : SizeClass) : sizeNorm s.render = s.render := by
  cases s <;> rfl

theorem render_suffix_ne (s1 s2 : SizeClass) (h : s1 ≠ s2) :
    ("_" ++ (s1.render ++ ".jpg")) ≠ ("_" ++ (s2.render ++ ".jpg")) := by
  cases s1 <;> cases s2 <;> first | exact absurd rfl h | decide

theorem tmpl_size_ne (lit n : String) {x y : String}
    (h : "_" ++ (x ++ ".jpg") ≠ "_" ++ (y ++ ".jpg")) :
    lit ++ (n ++ ("_" ++ (x ++ ".jpg"))) ≠ lit ++ (n ++ ("_" ++ (y ++ ".jpg"))) :=
  fun he => h (string_append_cancel_left n _ _ (string_append_cancel_left lit _ _ he))

theorem dlCount_append (a b : List NetEvent) :
    dlCount (a ++ b) = dlCount a + dlCount b := by
  simp [dlCount, List.filter_append]

theorem searchCount_append (a b : List NetEvent) :
    searchCount (a ++ b) = searchCount a + searchCount b := by
  simp [searchCount, List.filter_append]

theorem searchEventsOf_append (a b : List NetEvent) :
    searchEventsOf (a ++ b) = searchEventsOf a ++ searchEventsOf b := by
  simp [searchEventsOf, List.filterMap_append]

theorem download_to_trace (env : Env) (st : St) (url out : String) (allow fr : Bool) :
    ∃ Δ, (download_to env st url out allow fr).2.trace = st.trace ++ Δ
      ∧ dlCount Δ ≤ 1 ∧ searchCount Δ = 0 ∧ searchEventsOf Δ = [] := by
  by_cases hc : (!fr && validCache st.fs out) = true
  · exact ⟨[], by simp [download_to, hc], by decide, rfl, rfl⟩
  · have hc2 : (!fr && validCache st.fs out) = false := by simpa using hc
    refine ⟨[.download url], ?_, Nat.le.refl, rfl, rfl⟩
    cases hdl : env.download url with
    | exn => simp [download_to, hc2, hdl, St.log]
    | resp s c =>
      by_cases h404 : (allow && s == 404) = true
      · simp [download_to, hc2, hdl, h404, St.log]
      · by_cases h200 : (s == 200 && c != "") = true
        · by_cases hw : env.writeOk out = true
          · simp [download_to, hc2, hdl, h404, h200, hw, St.log, St.write]
          · have hw2 : env.writeOk out = false := by simpa using hw
            simp [download_to, hc2, hdl, h404, h200, hw2, St.log]
        · simp [download_to, hc2, hdl, h404, h200, St.log]

theorem fetch_work_description_trace (env : Env) (st : St) (k : String) :
    ∃ Δ, (fetch_work_description env st k).2.trace = st.trace ++ Δ
      ∧ dlCount Δ = 0 ∧ searchCount Δ = 0 ∧ searchEventsOf Δ = [] := by
  by_cases hk : k = ""
  · exact ⟨[], by simp [fetch_work_description, hk], rfl, rfl, rfl⟩
  · rw [fetch_work_description]
    simp only [hk, if_false]
    cases hj : env.jsonGet ("https://openlibrary.org"
        ++ workKeyNorm k ++ ".json") with
    | exn =>
      exact ⟨[.jsonGet ("https://openlibrary.org" ++ workKeyNorm k ++ ".json")],
        by simp [hj, St.log], rfl, rfl, rfl⟩
    | resp s j =>
      by_cases hs : (s != 200) = true
      · exact ⟨[.jsonGet ("https://openlibrary.org" ++ workKeyNorm k ++ ".json")],
          by simp [hj, hs, St.log], rfl, rfl, rfl⟩
      · have hs2 : (s != 200) = false := by simpa using hs
        exact ⟨[.jsonGet ("https://openlibrary.org" ++ workKeyNorm k ++ ".json")],
          by simp [hj, hs2, St.log], rfl, rfl, rfl⟩

theorem fetch_edition_description_trace (env : Env) (st : St) (k : String) :
    ∃ Δ, (fetch_edition_description env st k).2.trace = st.trace ++ Δ
      ∧ dlCount Δ = 0 ∧ searchCount Δ = 0 ∧ searchEventsOf Δ = [] := by
  by_cases hk : k = ""
  · exact ⟨[], by simp [fetch_edition_description, hk], rfl, rfl, rfl⟩
  · rw [fetch_edition_description]
    simp only [hk, if_false]
    cases hj : env.jsonGet ("https://openlibrary.org/books/"
        ++ editionKeyNorm k ++ ".json") with
    | exn =>
      exact ⟨[.jsonGet ("https://openlibrary.org/books/" ++ editionKeyNorm k ++ ".json")],
        by simp [hj, St.log], rfl, rfl, rfl⟩
    | resp s j =>
      by_cases hs : (s != 200) = true
      · exact ⟨[.jsonGet ("https://openlibrary.org/books/" ++ editionKeyNorm k ++ ".json")],
          by simp [hj, hs, St.log], rfl, rfl, rfl⟩
      · have hs2 : (s != 200) = false := by simpa using hs
        exact ⟨[.jsonGet ("https://openlibrary.org/books/" ++ editionKeyNorm k ++ ".json")],
          by simp [hj, hs2, St.log], rfl, rfl, rfl⟩

theorem fetch_description_by_isbn_trace (env : Env) (st : St) (isbn : String) :
    ∃ Δ, (fetch_description_by_isbn env st isbn).2.trace = st.trace ++ Δ
      ∧ dlCount Δ = 0 ∧ searchCount Δ = 0 ∧ searchEventsOf Δ = [] := by
  by_cases hs : normalize_isbn isbn = ""
  · exact ⟨[], by simp [fetch_description_by_isbn, hs], rfl, rfl, rfl⟩
  · rw [fetch_description_by_isbn]
    simp only [hs, if_false]
    cases hj : env.jsonGet ("https://openlibrary.org/isbn/"
        ++ normalize_isbn isbn ++ ".json") with
    | exn =>
      exact ⟨[.jsonGet ("https://openlibrary.org/isbn/" ++ normalize_isbn isbn ++ ".json")],
        by simp [hj, St.log], rfl, rfl, rfl⟩
    | resp s j =>
      by_cases hst : (s != 200) = true
      · exact ⟨[.jsonGet ("https://openlibrary.org/isbn/" ++ normalize_isbn isbn ++ ".json")],
          by simp [hj, hst, St.log], rfl, rfl, rfl⟩
      · have hst2 : (s != 200) = false := by simpa using hst
        rcases hd : j.description with _ | s2 | v
        · rcases hw : j.works with _ | ⟨wi, rest⟩
          · exact ⟨[.jsonGet ("https://openlibrary.org/isbn/"
                ++ normalize_isbn isbn ++ ".json")],
              by simp [hj, hst2, hd, hw, St.log], rfl, rfl, rfl⟩
          · cases wi with
            | junk =>
              exact ⟨[.jsonGet ("https://openlibrary.org/isbn/"
                  ++ normalize_isbn isbn ++ ".json")],
                by simp [hj, hst2, hd, hw, St.log], rfl, rfl, rfl⟩
            | item k =>
              cases k with
              | none =>
                exact ⟨[.jsonGet ("https://openlibrary.org/isbn/"
                    ++ normalize_isbn isbn ++ ".json")],
                  by simp [hj, hst2, hd, hw, St.log], rfl, rfl, rfl⟩
              | some k2 =>
                obtain ⟨Δ2, h2, hd2, hs2, he2⟩ := fetch_work_description_trace env
                  (st.log (.jsonGet ("https://openlibrary.org/isbn/"
                    ++ normalize_isbn isbn ++ ".json"))) k2
                refine ⟨[.jsonGet ("https://openlibrary.org/isbn/"
                    ++ normalize_isbn isbn ++ ".json")] ++ Δ2, ?_, ?_, ?_, ?_⟩
                · simp only [hj, hst2, hd, hw, Bool.false_eq_true, if_false]
                  rw [h2]
                  simp [St.log, List.append_assoc]
                · rw [dlCount_append, hd2]
                  rfl
                · rw [searchCount_append, hs2]
                  rfl
                · rw [searchEventsOf_append, he2]
                  rfl
        · exact ⟨[.jsonGet ("https://openlibrary.org/isbn/"
              ++ normalize_isbn isbn ++ ".json")],
            by simp [hj, hst2, hd, St.log], rfl, rfl, rfl⟩
        · cases v with
          | none =>
            rcases hw : j.works with _ | ⟨wi, rest⟩
            · exact ⟨[.jsonGet ("https://openlibrary.org/isbn/"
                  ++ normalize_isbn isbn ++ ".json")],
                by simp [hj, hst2, hd, hw, St.log], rfl, rfl, rfl⟩
            · cases wi with
              | junk =>
                exact ⟨[.jsonGet ("https://openlibrary.org/isbn/"
                    ++ normalize_isbn isbn ++ ".json")],
                  by simp [hj, hst2, hd, hw, St.log], rfl, rfl, rfl⟩
              | item k =>
                cases k with
                | none =>
                  exact ⟨[.jsonGet ("https://openlibrary.org/isbn/"
                      ++ normalize_isbn isbn ++ ".json")],
                    by simp [hj, hst2, hd, hw, St.log], rfl, rfl, rfl⟩
                | some k2 =>
                  obtain ⟨Δ2, h2, hd2, hs2, he2⟩ := fetch_work_description_trace env
                    (st.log (.jsonGet ("https://openlibrary.org/isbn/"
                      ++ normalize_isbn isbn ++ ".json"))) k2
                  refine ⟨[.jsonGet ("https://openlibrary.org/isbn/"
                      ++ normalize_isbn isbn ++ ".json")] ++ Δ2, ?_, ?_, ?_, ?_⟩
                  · simp only [hj, hst2, hd, hw, Bool.false_eq_true, if_false]
                    rw [h2]
                    simp [St.log, List.append_assoc]
                  · rw [dlCount_append, hd2]
                    rfl
                  · rw [searchCount_append, hs2]
                    rfl
                  · rw [searchEventsOf_append, he2]
                    rfl
          | some v2 =>
            exact ⟨[.jsonGet ("https://openlibrary.org/isbn/"
                ++ normalize_isbn isbn ++ ".json")],
              by simp [hj, hst2, hd, St.log], rfl, rfl, rfl⟩

theorem search_best_trace (cc : CoverCache) (env : Env) (st : St) (t a : String) :
    ∃ Δ, (search_openlibrary_best cc env st t a).2.trace = st.trace ++ Δ
      ∧ dlCount Δ = 0 ∧ searchCount Δ ≤ 1
      ∧ ∀ e ∈ searchEventsOf Δ, goodBestSearch cc e := by
  by_cases hg : (pyTrim t == "" && pyTrim a == "") = true
  · exact ⟨[], by simp [search_openlibrary_best, hg], rfl, by decide, by simp [searchEventsOf]⟩
  · have hg2 : (pyTrim t == "" && pyTrim a == "") = false := by simpa using hg
    refine ⟨[.search cc.base_search_url
        [("title", pyTrim t), ("author", pyTrim a), ("limit", "10"),
         ("fields", "cover_i,isbn,title,author_name,first_publish_year")]], ?_, rfl,
      Nat.le.refl, ?_⟩
    · cases hr : env.search cc.base_search_url
          [("title", pyTrim t), ("author", pyTrim a), ("limit", "10"),
           ("fields", "cover_i,isbn,title,author_name,first_publish_year")] with
      | exn => simp [search_openlibrary_best, hg2, hr, St.log]
      | resp s docs =>
        by_cases hst : (s != 200) = true
        · simp [search_openlibrary_best, hg2, hr, hst, St.log]
        · have hst2 : (s != 200) = false := by simpa using hst
          simp [search_openlibrary_best, hg2, hr, hst2, St.log]
    · intro e he
      have he2 : e = (cc.base_search_url,
          [("title", pyTrim t), ("author", pyTrim a), ("limit", "10"),
           ("fields", "cover_i,isbn,title,author_name,first_publish_year")]) := by
        simpa [searchEventsOf] using he
      subst he2
      exact ⟨rfl, by simp, by simp⟩

theorem search_extras_trace (env : Env) (st : St) (t a : String) :
    ∃ Δ, (search_openlibrary_best_extras env st t a).2.trace = st.trace ++ Δ
      ∧ dlCount Δ = 0 ∧ searchCount Δ ≤ 1
      ∧ ∀ e ∈ searchEventsOf Δ, goodExtrasSearch e := by
  by_cases hg : (pyTrim t == "" && pyTrim a == "") = true
  · exact ⟨[], by simp [search_openlibrary_best_extras, hg], rfl, by decide,
      by simp [searchEventsOf]⟩
  · have hg2 : (pyTrim t == "" && pyTrim a == "") = false := by simpa using hg
    refine ⟨[.search "https://openlibrary.org/search.json"
        ([("limit", "10"),
          ("fields", "title,author_name,cover_i,isbn,key,edition_key,first_publish_year")]
          ++ (if pyTrim t != "" then [("title", pyTrim t)] else [])
          ++ (if pyTrim a != "" then [("author", pyTrim a)] else []))], ?_, rfl,
      Nat.le.refl, ?_⟩
    · unfold search_openlibrary_best_extras
      simp only [hg2, Bool.false_eq_true, if_false]
      cases hr : env.search "https://openlibrary.org/search.json"
          ([("limit", "10"),
            ("fields", "title,author_name,cover_i,isbn,key,edition_key,first_publish_year")]
            ++ (if pyTrim t != "" then [("title", pyTrim t)] else [])
            ++ (if pyTrim a != "" then [("author", pyTrim a)] else [])) with
      | exn => simp only [hr, St.log]
      | resp s docs =>
        simp only [hr]
        by_cases hst : (s != 200) = true
        · simp only [hst, if_true, St.log]
        · have hst2 : (s != 200) = false := by simpa using hst
          simp only [hst2, Bool.false_eq_true, if_false]
          cases docs with
          | none => simp only [St.log]
          | some ds =>
            by_cases hds : ds = []
            · simp [hds, St.log]
            · simp [hds, St.log]
    · intro e he
      have he2 : e = ("https://openlibrary.org/search.json",
          [("limit", "10"),
           ("fields", "title,author_name,cover_i,isbn,key,edition_key,first_publish_year")]
          ++ (if pyTrim t != "" then [("title", pyTrim t)] else [])
          ++ (if pyTrim a != "" then [("author", pyTrim a)] else [])) := by
        simpa [searchEventsOf] using he
      subst he2
      refine ⟨rfl, by simp, by simp⟩

theorem gcp_noguard_trace (cc : CoverCache) (env : Env) (st : St) (isbn size : String)
    (fr : Bool) (title author : Option String)
    (hg : (optTruthy title || optTruthy author) = false) :
    ∃ Δ, (get_cover_path cc env st isbn size fr title author).2.trace = st.trace ++ Δ
      ∧ dlCount Δ ≤ 1 ∧ searchCount Δ = 0 ∧ searchEventsOf Δ = [] := by
  rw [get_cover_path.eq_def]
  by_cases hsafe : normalize_isbn isbn = ""
  · refine ⟨[], ?_, by decide, rfl, rfl⟩
    simp [hsafe, hg]
  · by_cases hcache :
        (!fr && validCache st.fs (cc.cache_path_isbn (normalize_isbn isbn) size)) = true
    · refine ⟨[], ?_, by decide, rfl, rfl⟩
      simp [hsafe, hcache]
    · have hcache2 :
          (!fr && validCache st.fs (cc.cache_path_isbn (normalize_isbn isbn) size))
            = false := by
        simpa using hcache
      obtain ⟨Δ1, h1, hd1, hs1, he1⟩ := download_to_trace env st
        (openlibrary_url_isbn (normalize_isbn isbn) size)
        (cc.cache_path_isbn (normalize_isbn isbn) size) true false
      refine ⟨Δ1, ?_, hd1, hs1, he1⟩
      simp only [hsafe, hcache2, ne_eq, not_false_eq_true, if_true, Bool.false_eq_true,
        if_false]
      cases hdl : (download_to env st (openlibrary_url_isbn (normalize_isbn isbn) size)
          (cc.cache_path_isbn (normalize_isbn isbn) size) true false).1 with
      | some p => simpa using h1
      | none => simpa [hg] using h1

theorem gcp_trace (cc : CoverCache) (env : Env) (st : St) (isbn size : String)
    (fr : Bool) (title author : Option String) :
    ∃ Δ, (get_cover_path cc env st isbn size fr title author).2.trace = st.trace ++ Δ
      ∧ dlCount Δ ≤ 2 ∧ searchCount Δ ≤ 1
      ∧ ∀ e ∈ searchEventsOf Δ, goodBestSearch cc e := by
  by_cases hgu : (optTruthy title || optTruthy author) = true
  case neg =>
    have hg : (optTruthy title || optTruthy author) = false := by simpa using hgu
    obtain ⟨Δ, h1, h2, h3, h4⟩ := gcp_noguard_trace cc env st isbn size fr title author hg
    exact ⟨Δ, h1, by omega, by omega, by simp [h4]⟩
  case pos =>
    rw [get_cover_path.eq_def]
    by_cases hsafe : normalize_isbn isbn = ""
    · simp only [hsafe, ne_eq, not_true_eq_false, if_false]
      obtain ⟨Δ2, hB, hBd, hBs, hBe⟩ := search_best_trace cc env st
        (pyOrEmpty title) (pyOrEmpty author)
      rw [dif_pos hgu]
      cases hf : (search_openlibrary_best cc env st (pyOrEmpty title) (pyOrEmpty author)).1 with
      | none => exact ⟨Δ2, by simpa using hB, by omega, hBs, hBe⟩
      | some pr =>
        rcases pr with ⟨ci, fisbn⟩
        cases ci with
        | some cid =>
          simp only []
          by_cases hc2 : (!fr && validCache
              (search_openlibrary_best cc env st (pyOrEmpty title) (pyOrEmpty author)).2.fs
              (cc.cache_path_coverid cid size)) = true
          · exact ⟨Δ2, by simpa [hc2] using hB, by omega, hBs, hBe⟩
          · have hc2f : (!fr && validCache
                (search_openlibrary_best cc env st (pyOrEmpty title) (pyOrEmpty author)).2.fs
                (cc.cache_path_coverid cid size)) = false := by simpa using hc2
            obtain ⟨Δ3, hC, hCd, hCs, hCe⟩ := download_to_trace env
              (search_openlibrary_best cc env st (pyOrEmpty title) (pyOrEmpty author)).2
              (openlibrary_url_coverid cid size) (cc.cache_path_coverid cid size) true false
            refine ⟨Δ2 ++ Δ3, ?_, ?_, ?_, ?_⟩
            · simp only [hc2f, Bool.false_eq_true, if_false]
              rw [hC, hB, List.append_assoc]
            · rw [dlCount_append]; omega
            · rw [searchCount_append]; omega
            · rw [searchEventsOf_append]
              intro e he
              rcases List.mem_append.1 he with he | he
              · exact hBe e he
              · rw [hCe] at he; cases he
        | none =>
          simp only []
          by_cases hfi : fisbn ≠ ""
          · obtain ⟨Δ3, hC, hCd, hCs, hCe⟩ := gcp_noguard_trace cc env
              (search_openlibrary_best cc env st (pyOrEmpty title) (pyOrEmpty author)).2
              fisbn size fr none none rfl
            refine ⟨Δ2 ++ Δ3, ?_, ?_, ?_, ?_⟩
            · rw [if_pos hfi, hC, hB, List.append_assoc]
            · rw [dlCount_append]; omega
            · rw [searchCount_append]; omega
            · rw [searchEventsOf_append]
              intro e he
              rcases List.mem_append.1 he with he | he
              · exact hBe e he
              · rw [hCe] at he; cases he
          · exact ⟨Δ2, by simpa [hfi] using hB, by omega, hBs, hBe⟩
    · by_cases hcache :
          (!fr && validCache st.fs (cc.cache_path_isbn (normalize_isbn isbn) size)) = true
      · exact ⟨[], by simp [hsafe, hcache], by decide, by decide, by simp [searchEventsOf]⟩
      · have hcache2 :
            (!fr && validCache st.fs (cc.cache_path_isbn (normalize_isbn isbn) size))
              = false := by
          simpa using hcache
        obtain ⟨Δ1, hA, hAd, hAs, hAe⟩ := download_to_trace env st
          (openlibrary_url_isbn (normalize_isbn isbn) size)
          (cc.cache_path_isbn (normalize_isbn isbn) size) true false
        simp only [hsafe, hcache2, ne_eq, not_false_eq_true, if_true, Bool.false_eq_true,
          if_false]
        cases hdl : (download_to env st (openlibrary_url_isbn (normalize_isbn isbn) size)
            (cc.cache_path_isbn (normalize_isbn isbn) size) true false).1 with
        | some p => exact ⟨Δ1, by simpa using hA, by omega, by omega, by
            intro e he; rw [hAe] at he; cases he⟩
        | none =>
          obtain ⟨Δ2, hB, hBd, hBs, hBe⟩ := search_best_trace cc env
            (download_to env st (openlibrary_url_isbn (normalize_isbn isbn) size)
              (cc.cache_path_isbn (normalize_isbn isbn) size) true false).2
            (pyOrEmpty title) (pyOrEmpty author)
          rw [dif_pos hgu]
          cases hf : (search_openlibrary_best cc env
              (download_to env st (openlibrary_url_isbn (normalize_isbn isbn) size)
                (cc.cache_path_isbn (normalize_isbn isbn) size) true false).2
              (pyOrEmpty title) (pyOrEmpty author)).1 with
          | none =>
            refine ⟨Δ1 ++ Δ2, ?_, ?_, ?_, ?_⟩
            · rw [hB, hA, List.append_assoc]
            · rw [dlCount_append]; omega
            · rw [searchCount_append]; omega
            · rw [searchEventsOf_append]
              intro e he
              rcases List.mem_append.1 he with he | he
              · rw [hAe] at he; cases he
              · exact hBe e he
          | some pr =>
            rcases pr with ⟨ci, fisbn⟩
            cases ci with
            | some cid =>
              simp only []
              by_cases hc2 : (!fr && validCache
                  (search_openlibrary_best cc env
                    (download_to env st (openlibrary_url_isbn (normalize_isbn isbn) size)
                      (cc.cache_path_isbn (normalize_isbn isbn) size) true false).2
                    (pyOrEmpty title) (pyOrEmpty author)).2.fs
                  (cc.cache_path_coverid cid size)) = true
              · refine ⟨Δ1 ++ Δ2, ?_, ?_, ?_, ?_⟩
                · rw [if_pos hc2, hB, hA, List.append_assoc]
                · rw [dlCount_append]; omega
                · rw [searchCount_append]; omega
                · rw [searchEventsOf_append]
                  intro e he
                  rcases List.mem_append.1 he with he | he
                  · rw [hAe] at he; cases he
                  · exact hBe e he
              · have hc2f : (!fr && validCache
                    (search_openlibrary_best cc env
                      (download_to env st (openlibrary_url_isbn (normalize_isbn isbn) size)
                        (cc.cache_path_isbn (normalize_isbn isbn) size) true false).2
                      (pyOrEmpty title) (pyOrEmpty author)).2.fs
                    (cc.cache_path_coverid cid size)) = false := by simpa using hc2
                obtain ⟨Δ3, hC, hCd, hCs, hCe⟩ := download_to_trace env
                  (search_openlibrary_best cc env
                    (download_to env st (openlibrary_url_isbn (normalize_isbn isbn) size)
                      (cc.cache_path_isbn (normalize_isbn isbn) size) true false).2
                    (pyOrEmpty title) (pyOrEmpty author)).2
                  (openlibrary_url_coverid cid size) (cc.cache_path_coverid cid size)
                  true false
                refine ⟨Δ1 ++ Δ2 ++ Δ3, ?_, ?_, ?_, ?_⟩
                · simp only [hc2f, Bool.false_eq_true, if_false]
                  rw [hC, hB, hA]
                  simp [List.append_assoc]
                · rw [dlCount_append, dlCount_append]; omega
                · rw [searchCount_append, searchCount_append]; omega
                · rw [searchEventsOf_append, searchEventsOf_append]
                  intro e he
                  rcases List.mem_append.1 he with he | he
                  · rcases List.mem_append.1 he with he | he
                    · rw [hAe] at he; cases he
                    · exact hBe e he
                  · rw [hCe] at he; cases he
            | none =>
              simp only []
              by_cases hfi : fisbn ≠ ""
              · obtain ⟨Δ3, hC, hCd, hCs, hCe⟩ := gcp_noguard_trace cc env
                  (search_openlibrary_best cc env
                    (download_to env st (openlibrary_url_isbn (normalize_isbn isbn) size)
                      (cc.cache_path_isbn (normalize_isbn isbn) size) true false).2
                    (pyOrEmpty title) (pyOrEmpty author)).2
                  fisbn size fr none none rfl
                refine ⟨Δ1 ++ Δ2 ++ Δ3, ?_, ?_, ?_, ?_⟩
                · rw [if_pos hfi, hC, hB, hA]
                  simp [List.append_assoc]
                · rw [dlCount_append, dlCount_append]; omega
                · rw [searchCount_append, searchCount_append]; omega
                · rw [searchEventsOf_append, searchEventsOf_append]
                  intro e he
                  rcases List.mem_append.1 he with he | he
                  · rcases List.mem_append.1 he with he | he
                    · rw [hAe] at he; cases he
                    · exact hBe e he
                  · rw [hCe] at he; cases he
              · refine ⟨Δ1 ++ Δ2, ?_, ?_, ?_, ?_⟩
                · rw [if_neg hfi, hB, hA, List.append_assoc]
                · rw [dlCount_append]; omega
                · rw [searchCount_append]; omega
                · rw [searchEventsOf_append]
                  intro e he
                  rcases List.mem_append.1 he with he | he
                  · rw [hAe] at he; cases he
                  · exact hBe e he

/-- C4: one `get_cover_path` call issues at most one search request and
at most two cover downloads, whatever the environment: the identifier
retry re-enters with `title = author = none`, so it cannot reach the
search fallback again and adds at most one more download.  Termination
itself is witnessed by `get_cover_path` being a total Lean function (its
recursion measure is the truthiness of the title/author pair, which the
retry resets). -/
theorem c4_bounded_retry (cc : CoverCache) (env : Env) (st : St) (isbn size : String)
    (fr : Bool) (title author : Option String) :
    searchCount (get_cover_path cc env st isbn size fr title author).2.trace
      ≤ searchCount st.trace + 1
    ∧ dlCount (get_cover_path cc env st isbn size fr title author).2.trace
      ≤ dlCount st.trace + 2 := by
  obtain ⟨Δ, h1, h2, h3, h4⟩ := gcp_trace cc env st isbn size fr title author
  refine ⟨?_, ?_⟩ <;> rw [h1]
  · rw [searchCount_append]; omega
  · rw [dlCount_append]; omega

theorem gcs_isbns_trace (cc : CoverCache) (env : Env) (st : St) (size : String)
    (fr : Bool) (d : SearchDoc) (sm : String) :
    ∃ Δ, (gcs_isbns cc env st size fr d sm).2.trace = st.trace ++ Δ
      ∧ searchEventsOf Δ = [] := by
  rw [gcs_isbns]
  cases hl : d.isbn with
  | none => exact ⟨[], by simp, rfl⟩
  | some l =>
    by_cases hne : l = []
    · exact ⟨[], by simp [hne], rfl⟩
    · by_cases hb : choose_best_isbn l = ""
      · exact ⟨[], by simp [hne, hb], rfl⟩
      · by_cases hcc : fr = false ∧ validCache st.fs
            (cc.cache_path_isbn (choose_best_isbn l) size) = true
        · exact ⟨[], by simp [hne, hb, hcc], rfl⟩
        · obtain ⟨Δ1, h1, hd1, hs1, he1⟩ := download_to_trace env st
            (openlibrary_url_isbn (choose_best_isbn l) size)
            (cc.cache_path_isbn (choose_best_isbn l) size) false fr
          refine ⟨Δ1, ?_, he1⟩
          cases hdl : (download_to env st (openlibrary_url_isbn (choose_best_isbn l) size)
              (cc.cache_path_isbn (choose_best_isbn l) size) false fr).1 with
          | some p => simpa [hne, hb, hcc, hdl] using h1
          | none => simpa [hne, hb, hcc, hdl] using h1

theorem gcs_cover_trace (cc : CoverCache) (env : Env) (st : St) (size : String)
    (fr : Bool) (d : SearchDoc) (sm : String) :
    ∃ Δ, (gcs_cover cc env st size fr d sm).2.trace = st.trace ++ Δ
      ∧ searchEventsOf Δ = [] := by
  rw [gcs_cover]
  cases hn : d.cover_i with
  | none => exact gcs_isbns_trace cc env st size fr d sm
  | some n =>
    by_cases hcc : (!fr && validCache st.fs (cc.cache_path_coverid n size)) = true
    · exact ⟨[], by simp [hcc], rfl⟩
    · have hcc2 : (!fr && validCache st.fs (cc.cache_path_coverid n size)) = false := by
        simpa using hcc
      obtain ⟨Δ1, h1, hd1, hs1, he1⟩ := download_to_trace env st
        (openlibrary_url_coverid n size) (cc.cache_path_coverid n size) false fr
      simp only [hcc2, Bool.false_eq_true, if_false]
      cases hdl : (download_to env st (openlibrary_url_coverid n size)
          (cc.cache_path_coverid n size) false fr).1 with
      | some p => exact ⟨Δ1, by simpa using h1, he1⟩
      | none =>
        obtain ⟨Δ2, h2, he2⟩ := gcs_isbns_trace cc env
          (download_to env st (openlibrary_url_coverid n size)
            (cc.cache_path_coverid n size) false fr).2 size fr d sm
        refine ⟨Δ1 ++ Δ2, ?_, ?_⟩
        · rw [h2, h1]
          simp [List.append_assoc]
        · rw [searchEventsOf_append, he1, he2]
          rfl

theorem gcs_fallback_trace (cc : CoverCache) (env : Env) (st : St)
    (size t a : String) (fr ws : Bool) (ism : String) :
    ∃ Δ, (gcs_fallback cc env st size t a fr ws ism).2.trace = st.trace ++ Δ
      ∧ ∀ e ∈ searchEventsOf Δ, goodExtrasSearch e := by
  rw [gcs_fallback]
  obtain ⟨Δ1, h1, hd1, hs1, he1⟩ := search_extras_trace env st t a
  cases hx : (search_openlibrary_best_extras env st t a).1 with
  | none => exact ⟨Δ1, by simpa using h1, he1⟩
  | some d =>
    simp only []
    by_cases hws : ws = true
    case neg =>
      have hws2 : ws = false := by simpa using hws
      subst hws2
      obtain ⟨Δ2, h2, he2⟩ := gcs_cover_trace cc env
        (search_openlibrary_best_extras env st t a).2 size fr d ism
      refine ⟨Δ1 ++ Δ2, ?_, ?_⟩
      · simp only [Bool.false_eq_true, if_false]
        rw [h2, h1]
        simp [List.append_assoc]
      · rw [searchEventsOf_append]
        intro e he
        rcases List.mem_append.1 he with he | he
        · exact he1 e he
        · rw [he2] at he; cases he
    case pos =>
      subst hws
      obtain ⟨Δw, hw, hdw, hsw, hew⟩ := fetch_work_description_trace env
        (search_openlibrary_best_extras env st t a).2 (d.key.getD "")
      by_cases hwres : (fetch_work_description env
          (search_openlibrary_best_extras env st t a).2 (d.key.getD "")).1 ≠ ""
      · obtain ⟨Δ2, h2, he2⟩ := gcs_cover_trace cc env
          (fetch_work_description env
            (search_openlibrary_best_extras env st t a).2 (d.key.getD "")).2 size fr d
          (fetch_work_description env
            (search_openlibrary_best_extras env st t a).2 (d.key.getD "")).1
        refine ⟨Δ1 ++ (Δw ++ Δ2), ?_, ?_⟩
        · simp only [eq_self_iff_true, if_true, if_pos hwres]
          rw [h2, hw, h1]
          simp [List.append_assoc]
        · rw [searchEventsOf_append, searchEventsOf_append, hew, he2]
          intro e he
          rcases List.mem_append.1 he with he | he
          · exact he1 e he
          · simp at he
      · obtain ⟨Δe, hev, hde, hse, hee⟩ := fetch_edition_description_trace env
          (fetch_work_description env
            (search_openlibrary_best_extras env st t a).2 (d.key.getD "")).2
          (match d.edition_key with
            | .list (x :: _) => x
            | .list [] => ""
            | .str e => e
            | .absent => "")
        obtain ⟨Δ2, h2, he2⟩ := gcs_cover_trace cc env
          (fetch_edition_description env
            (fetch_work_description env
              (search_openlibrary_best_extras env st t a).2 (d.key.getD "")).2
            (match d.edition_key with
              | .list (x :: _) => x
              | .list [] => ""
              | .str e => e
              | .absent => "")).2 size fr d
          (fetch_edition_description env
            (fetch_work_description env
              (search_openlibrary_best_extras env st t a).2 (d.key.getD "")).2
            (match d.edition_key with
              | .list (x :: _) => x
              | .list [] => ""
              | .str e => e
              | .absent => "")).1
        refine ⟨Δ1 ++ (Δw ++ (Δe ++ Δ2)), ?_, ?_⟩
        · simp only [eq_self_iff_true, if_true, if_neg hwres]
          rw [h2, hev, hw, h1]
          simp [List.append_assoc]
        · rw [searchEventsOf_append, searchEventsOf_append, searchEventsOf_append,
            hew, hee, he2]
          intro e he
          rcases List.mem_append.1 he with he | he
          · exact he1 e he
          · simp at he

theorem gcs_trace (cc : CoverCache) (env : Env) (st : St)
    (isbn size t a : String) (fr ws : Bool) :
    ∃ Δ, (get_cover_and_summary cc env st isbn size t a fr ws).2.trace = st.trace ++ Δ
      ∧ ∀ e ∈ searchEventsOf Δ, goodExtrasSearch e := by
  rw [get_cover_and_summary]
  by_cases hsafe : normalize_isbn isbn = ""
  · simp only [hsafe, ne_eq, not_true_eq_false, if_false]
    exact gcs_fallback_trace cc env st size t a fr ws ""
  · by_cases hcache :
        (!fr && validCache st.fs (cc.cache_path_isbn (normalize_isbn isbn) size)) = true
    · simp only [hsafe, ne_eq, not_false_eq_true, if_true, hcache]
      by_cases hws : ws = true
      · obtain ⟨Δ1, h1, hd1, hs1, he1⟩ := fetch_description_by_isbn_trace env st
          (normalize_isbn isbn)
        exact ⟨Δ1, by simpa [hws] using h1, by rw [he1]; intro e he; cases he⟩
      · have hws2 : ws = false := by simpa using hws
        exact ⟨[], by simp [hws2], by intro e he; cases he⟩
    · have hcache2 :
          (!fr && validCache st.fs (cc.cache_path_isbn (normalize_isbn isbn) size))
            = false := by
        simpa using hcache
      simp only [hsafe, ne_eq, not_false_eq_true, if_true, hcache2, Bool.false_eq_true,
        if_false]
      obtain ⟨Δ1, h1, hd1, hs1, he1⟩ := download_to_trace env st
        (openlibrary_url_isbn (normalize_isbn isbn) size)
        (cc.cache_path_isbn (normalize_isbn isbn) size) false fr
      cases hdl : (download_to env st (openlibrary_url_isbn (normalize_isbn isbn) size)
          (cc.cache_path_isbn (normalize_isbn isbn) size) false fr).1 with
      | some p =>
        by_cases hws : ws = true
        · subst hws
          obtain ⟨Δ2, h2, hd2, hs2, he2⟩ := fetch_description_by_isbn_trace env
            (download_to env st (openlibrary_url_isbn (normalize_isbn isbn) size)
              (cc.cache_path_isbn (normalize_isbn isbn) size) false fr).2
            (normalize_isbn isbn)
          refine ⟨Δ1 ++ Δ2, ?_, ?_⟩
          · simp only [eq_self_iff_true, if_true]
            rw [h2, h1]
            simp [List.append_assoc]
          · rw [searchEventsOf_append, he1, he2]
            intro e he
            cases he
        · have hws2 : ws = false := by simpa using hws
          subst hws2
          exact ⟨Δ1, by simpa using h1, by rw [he1]; intro e he; cases he⟩
      | none =>
        by_cases hws : ws = true
        · subst hws
          obtain ⟨Δ2, h2, hd2, hs2, he2⟩ := fetch_description_by_isbn_trace env
            (download_to env st (openlibrary_url_isbn (normalize_isbn isbn) size)
              (cc.cache_path_isbn (normalize_isbn isbn) size) false fr).2
            (normalize_isbn isbn)
          obtain ⟨Δ3, h3, he3⟩ := gcs_fallback_trace cc env
            (fetch_description_by_isbn env
              (download_to env st (openlibrary_url_isbn (normalize_isbn isbn) size)
                (cc.cache_path_isbn (normalize_isbn isbn) size) false fr).2
              (normalize_isbn isbn)).2 size t a fr true
            (fetch_description_by_isbn env
              (download_to env st (openlibrary_url_isbn (normalize_isbn isbn) size)
                (cc.cache_path_isbn (normalize_isbn isbn) size) false fr).2
              (normalize_isbn isbn)).1
          refine ⟨Δ1 ++ (Δ2 ++ Δ3), ?_, ?_⟩
          · simp only [eq_self_iff_true, if_true]
            rw [h3, h2, h1]
            simp [List.append_assoc]
          · rw [searchEventsOf_append, searchEventsOf_append, he1, he2]
            intro e he
            rcases List.mem_append.1 he with he | he
            · cases he
            · rcases List.mem_append.1 he with he | he
              · cases he
              · exact he3 e he
        · have hws2 : ws = false := by simpa using hws
          subst hws2
          obtain ⟨Δ3, h3, he3⟩ := gcs_fallback_trace cc env
            (download_to env st (openlibrary_url_isbn (normalize_isbn isbn) size)
              (cc.cache_path_isbn (normalize_isbn isbn) size) false fr).2 size t a fr
            false ""
          refine ⟨Δ1 ++ Δ3, ?_, ?_⟩
          · simp only [Bool.false_eq_true, if_false]
            rw [h3, h1]
            simp [List.append_assoc]
          · rw [searchEventsOf_append, he1]
            intro e he
            rcases List.mem_append.1 he with he | he
            · cases he
            · exact he3 e he

/-- C1: with a non-empty normalized identifier whose mapped cache file
is a valid entry, `get_cover_path` with `force_refresh = false` returns
exactly the mapped path with the world unchanged — no transport request
of any kind — and the identifier branch of `get_cover_and_summary`
returns that path for the cover while issuing no cover download and no
search (only the optional metadata JSON fetch for the summary). -/
theorem c1_cache_hit_no_network (cc : CoverCache) (env : Env) (st : St)
    (isbn size : String) (title author : Option String) (t a : String) (ws : Bool)
    (h1 : normalize_isbn isbn ≠ "")
    (h2 : validCache st.fs (cc.cache_path_isbn isbn size) = true) :
    get_cover_path cc env st isbn size false title author
      = (some (cc.cache_path_isbn isbn size), st)
    ∧ (get_cover_and_summary cc env st isbn size t a false ws).1.path
      = some (cc.cache_path_isbn isbn size)
    ∧ dlCount (get_cover_and_summary cc env st isbn size t a false ws).2.trace
      = dlCount st.trace
    ∧ searchCount (get_cover_and_summary cc env st isbn size t a false ws).2.trace
      = searchCount st.trace := by
  have hpath : cc.cache_path_isbn (normalize_isbn isbn) size
      = cc.cache_path_isbn isbn size := by
    rw [CoverCache.cache_path_isbn, CoverCache.cache_path_isbn, normalize_isbn_idem]
  have h2i : validCache st.fs (cc.cache_path_isbn (normalize_isbn isbn) size) = true := by
    rw [hpath]; exact h2
  have hbranch : get_cover_and_summary cc env st isbn size t a false ws
      = ({ path := some (cc.cache_path_isbn (normalize_isbn isbn) size),
           summary := (if ws = true then fetch_description_by_isbn env st (normalize_isbn isbn)
             else ("", st)).1 },
         (if ws = true then fetch_description_by_isbn env st (normalize_isbn isbn)
           else ("", st)).2) := by
    rw [get_cover_and_summary]
    simp [h1, h2i]
  refine ⟨?_, ?_, ?_, ?_⟩
  · rw [get_cover_path.eq_def]
    simp [h1, h2, h2i, hpath]
  · rw [hbranch, hpath]
  · rw [hbranch]
    by_cases hw : ws = true
    · subst hw
      obtain ⟨Δ, hΔ, hdΔ, hsΔ, heΔ⟩ := fetch_description_by_isbn_trace env st
        (normalize_isbn isbn)
      simp only [eq_self_iff_true, if_true]
      rw [hΔ, dlCount_append, hdΔ]
      omega
    · have hw2 : ws = false := by simpa using hw
      subst hw2
      simp
  · rw [hbranch]
    by_cases hw : ws = true
    · subst hw
      obtain ⟨Δ, hΔ, hdΔ, hsΔ, heΔ⟩ := fetch_description_by_isbn_trace env st
        (normalize_isbn isbn)
      simp only [eq_self_iff_true, if_true]
      rw [hΔ, searchCount_append, hsΔ]
      omega
    · have hw2 : ws = false := by simpa using hw
      subst hw2
      simp

/-- C1 witness: a hyphenated identifier with a pre-populated, non-empty
cache file; every network oracle would fail the run if consulted. -/
theorem c1_cache_hit_no_network_witness :
    normalize_isbn "0-306-40615-2" ≠ ""
    ∧ validCache
        (fun p => if p = "cache/isbn_0306406152_L.jpg" then some "X" else none)
        (CoverCache.cache_path_isbn ⟨"cache", "BookStatsGUI/1.0 (+local)",
          "https://openlibrary.org/search.json"⟩ "0-306-40615-2" "L") = true
    ∧ (get_cover_path ⟨"cache", "BookStatsGUI/1.0 (+local)",
          "https://openlibrary.org/search.json"⟩
        ⟨fun _ => DlOutcome.exn, fun _ _ => SearchOutcome.exn, fun _ => JsonOutcome.exn,
          fun _ => false⟩
        ⟨fun p => if p = "cache/isbn_0306406152_L.jpg" then some "X" else none, []⟩
        "0-306-40615-2" "L" false none none
      = (some (CoverCache.cache_path_isbn ⟨"cache", "BookStatsGUI/1.0 (+local)",
            "https://openlibrary.org/search.json"⟩ "0-306-40615-2" "L"),
         ⟨fun p => if p = "cache/isbn_0306406152_L.jpg" then some "X" else none, []⟩)
      ∧ (get_cover_and_summary ⟨"cache", "BookStatsGUI/1.0 (+local)",
            "https://openlibrary.org/search.json"⟩
          ⟨fun _ => DlOutcome.exn, fun _ _ => SearchOutcome.exn, fun _ => JsonOutcome.exn,
            fun _ => false⟩
          ⟨fun p => if p = "cache/isbn_0306406152_L.jpg" then some "X" else none, []⟩
          "0-306-40615-2" "L" "" "" false true).1.path
        = some (CoverCache.cache_path_isbn ⟨"cache", "BookStatsGUI/1.0 (+local)",
            "https://openlibrary.org/search.json"⟩ "0-306-40615-2" "L")
      ∧ dlCount (get_cover_and_summary ⟨"cache", "BookStatsGUI/1.0 (+local)",
            "https://openlibrary.org/search.json"⟩
          ⟨fun _ => DlOutcome.exn, fun _ _ => SearchOutcome.exn, fun _ => JsonOutcome.exn,
            fun _ => false⟩
          ⟨fun p => if p = "cache/isbn_0306406152_L.jpg" then some "X" else none, []⟩
          "0-306-40615-2" "L" "" "" false true).2.trace
        = dlCount ([] : List NetEvent)
      ∧ searchCount (get_cover_and_summary ⟨"cache", "BookStatsGUI/1.0 (+local)",
            "https://openlibrary.org/search.json"⟩
          ⟨fun _ => DlOutcome.exn, fun _ _ => SearchOutcome.exn, fun _ => JsonOutcome.exn,
            fun _ => false⟩
          ⟨fun p => if p = "cache/isbn_0306406152_L.jpg" then some "X" else none, []⟩
          "0-306-40615-2" "L" "" "" false true).2.trace
        = searchCount ([] : List NetEvent)) :=
  ⟨by decide, by decide,
   c1_cache_hit_no_network ⟨"cache", "BookStatsGUI/1.0 (+local)",
       "https://openlibrary.org/search.json"⟩
     ⟨fun _ => DlOutcome.exn, fun _ _ => SearchOutcome.exn, fun _ => JsonOutcome.exn,
       fun _ => false⟩
     ⟨fun p => if p = "cache/isbn_0306406152_L.jpg" then some "X" else none, []⟩
     "0-306-40615-2" "L" none none "" "" true (by decide) (by decide)⟩

/-- C2 (code bug evaluation): `force_refresh = true`, a valid cache
entry, and a transport that would answer 200 with a fresh body; yet
`get_cover_path` returns the stale cached path and its trace stays
empty — the transport is never invoked — because the call at
`cover_cache.py:140` does not forward `force_refresh` to `_download_to`,
whose default `False` re-enables the internal cache short-circuit
(`get_cover_and_summary` forwards the flag and is not affected). -/
theorem c2_force_refresh_not_forwarded :
    validCache
        (fun p => if p = "cache/isbn_9780140449136_L.jpg" then some "OLD" else none)
        (CoverCache.cache_path_isbn ⟨"cache", "BookStatsGUI/1.0 (+local)",
          "https://openlibrary.org/search.json"⟩ "9780140449136" "L") = true
    ∧ (get_cover_path ⟨"cache", "BookStatsGUI/1.0 (+local)",
          "https://openlibrary.org/search.json"⟩
        ⟨fun _ => DlOutcome.resp 200 "IMG", fun _ _ => SearchOutcome.exn,
          fun _ => JsonOutcome.exn, fun _ => true⟩
        ⟨fun p => if p = "cache/isbn_9780140449136_L.jpg" then some "OLD" else none, []⟩
        "9780140449136" "L" true none none).1
      = some "cache/isbn_9780140449136_L.jpg"
    ∧ (get_cover_path ⟨"cache", "BookStatsGUI/1.0 (+local)",
          "https://openlibrary.org/search.json"⟩
        ⟨fun _ => DlOutcome.resp 200 "IMG", fun _ _ => SearchOutcome.exn,
          fun _ => JsonOutcome.exn, fun _ => true⟩
        ⟨fun p => if p = "cache/isbn_9780140449136_L.jpg" then some "OLD" else none, []⟩
        "9780140449136" "L" true none none).2.trace
      = [] := by
  refine ⟨by decide, ?_, ?_⟩ <;> rw [get_cover_path.eq_def] <;> decide

/-- C9 (counterexample): the search call issued by `get_cover_path` for
title `Dune` carries the five-name field list of
`_search_openlibrary_best` — `key` and `edition_key` are missing from
it, contradicting the claimed seven-name list. -/
theorem c9_counterexample :
    (get_cover_path ⟨"cache", "BookStatsGUI/1.0 (+local)",
          "https://openlibrary.org/search.json"⟩
        ⟨fun _ => DlOutcome.exn, fun _ _ => SearchOutcome.exn, fun _ => JsonOutcome.exn,
          fun _ => true⟩
        ⟨fun _ => none, []⟩ "" "L" false (some "Dune") none).2.trace
      = [NetEvent.search "https://openlibrary.org/search.json"
          [("title", "Dune"), ("author", ""), ("limit", "10"),
           ("fields", "cover_i,isbn,title,author_name,first_publish_year")]]
    ∧ "cover_i,isbn,title,author_name,first_publish_year"
      ≠ "cover_i,isbn,title,author_name,first_publish_year,key,edition_key" := by
  refine ⟨?_, by decide⟩
  rw [get_cover_path.eq_def]
  decide

/-- C9 (amended): every search request issued by `get_cover_path` goes
to the configured search URL with limit 10 and exactly the fields
`cover_i,isbn,title,author_name,first_publish_year`, while every search
request issued by `get_cover_and_summary` goes to
`https://openlibrary.org/search.json` with limit 10 and exactly the
fields `title,author_name,cover_i,isbn,key,edition_key,first_publish_year`. -/
theorem c9_search_request_shape (cc : CoverCache) (env : Env) (st : St)
    (isbn size : String) (fr : Bool) (title author : Option String)
    (t a : String) (ws : Bool) :
    (∀ e ∈ searchEventsOf (get_cover_path cc env st isbn size fr title author).2.trace,
        e ∈ searchEventsOf st.trace ∨ goodBestSearch cc e)
    ∧ (∀ e ∈ searchEventsOf
          (get_cover_and_summary cc env st isbn size t a fr ws).2.trace,
        e ∈ searchEventsOf st.trace ∨ goodExtrasSearch e) := by
  constructor
  · obtain ⟨Δ, h1, _, _, h4⟩ := gcp_trace cc env st isbn size fr title author
    rw [h1, searchEventsOf_append]
    intro e he
    rcases List.mem_append.1 he with he | he
    · exact Or.inl he
    · exact Or.inr (h4 e he)
  · obtain ⟨Δ, h1, h4⟩ := gcs_trace cc env st isbn size t a fr ws
    rw [h1, searchEventsOf_append]
    intro e he
    rcases List.mem_append.1 he with he | he
    · exact Or.inl he
    · exact Or.inr (h4 e he)

/-- C9 amended-claim witness: the concrete `Dune` run from the
counterexample instantiates the first half at its single search event. -/
theorem c9_search_request_shape_witness :
    ("https://openlibrary.org/search.json",
        [("title", "Dune"), ("author", ""), ("limit", "10"),
         ("fields", "cover_i,isbn,title,author_name,first_publish_year")])
      ∈ searchEventsOf (get_cover_path ⟨"cache", "BookStatsGUI/1.0 (+local)",
          "https://openlibrary.org/search.json"⟩
        ⟨fun _ => DlOutcome.exn, fun _ _ => SearchOutcome.exn, fun _ => JsonOutcome.exn,
          fun _ => true⟩
        ⟨fun _ => none, []⟩ "" "L" false (some "Dune") none).2.trace
    ∧ (("https://openlibrary.org/search.json",
        [("title", "Dune"), ("author", ""), ("limit", "10"),
         ("fields", "cover_i,isbn,title,author_name,first_publish_year")])
      ∈ searchEventsOf ([] : List NetEvent)
      ∨ goodBestSearch ⟨"cache", "BookStatsGUI/1.0 (+local)",
          "https://openlibrary.org/search.json"⟩
        ("https://openlibrary.org/search.json",
          [("title", "Dune"), ("author", ""), ("limit", "10"),
           ("fields", "cover_i,isbn,title,author_name,first_publish_year")])) :=
  ⟨by rw [get_cover_path.eq_def]; decide,
   (c9_search_request_shape ⟨"cache", "BookStatsGUI/1.0 (+local)",
       "https://openlibrary.org/search.json"⟩
     ⟨fun _ => DlOutcome.exn, fun _ _ => SearchOutcome.exn, fun _ => JsonOutcome.exn,
       fun _ => true⟩
     ⟨fun _ => none, []⟩ "" "L" false (some "Dune") none "" "" false).1
     ("https://openlibrary.org/search.json",
       [("title", "Dune"), ("author", ""), ("limit", "10"),
        ("fields", "cover_i,isbn,title,author_name,first_publish_year")])
     (by rw [get_cover_path.eq_def]; decide)⟩

/-- C5: whenever `_download_to` actually consults the network (its
internal cache short-circuit does not fire), its result is exactly the
spec's transport classification: every raised error and every
non-success response collapse to absent (404 under allow-404 included),
and a success writes the response body to the destination path, which is
returned.  The function is total by construction (the `try/except`
handler is the `exn` outcome), and so are `get_cover_path` and
`get_cover_and_summary`, so the public operations always deliver a
result value and never propagate an exception. -/
theorem c5_download_to_spec (env : Env) (st : St) (url out : String) (allow fr : Bool)
    (h : fr = true ∨ validCache st.fs out = false) :
    (download_to env st url out allow fr).1
      = fetchSpec (env.download url) out (env.writeOk out)
    ∧ (∀ c : String, env.download url = DlOutcome.resp 200 c → c ≠ "" →
        env.writeOk out = true → (download_to env st url out allow fr).2.fs out = some c)
    ∧ ((download_to env st url out allow fr).1 = none →
        (download_to env st url out allow fr).2.fs = st.fs) := by
  have hcond : (!fr && validCache st.fs out) = false := by
    rcases h with h | h <;> simp [h]
  cases hdl : env.download url with
  | exn =>
    refine ⟨?_, ?_, ?_⟩ <;> simp [download_to, hcond, hdl, fetchSpec, St.log]
  | resp s c =>
    by_cases h404 : (allow && s == 404) = true
    · have hs : s = 404 := by
        have h2 := h404
        simp only [Bool.and_eq_true, beq_iff_eq] at h2
        exact h2.2
      subst hs
      refine ⟨?_, ?_, ?_⟩ <;>
        simp [download_to, hcond, hdl, h404, fetchSpec, St.log]
    · by_cases h200 : (s == 200 && c != "") = true
      · have hs : s = 200 ∧ c ≠ "" := by
          have h2 := h200
          simp only [Bool.and_eq_true, beq_iff_eq, bne_iff_ne] at h2
          exact h2
        by_cases hw : env.writeOk out = true
        · refine ⟨?_, ?_, ?_⟩ <;>
            simp [download_to, hcond, hdl, h404, h200, hw, fetchSpec, St.log, St.write,
              hs.1, hs.2]
        · have hw2 : env.writeOk out = false := by simpa using hw
          refine ⟨?_, ?_, ?_⟩ <;>
            simp [download_to, hcond, hdl, h404, h200, hw2, fetchSpec, St.log]
      · have hs : ¬(s = 200 ∧ c ≠ "") := by
          intro hcc
          exact h200 (by simp [hcc.1, hcc.2])
        refine ⟨?_, ?_, ?_⟩ <;>
          simp [download_to, hcond, hdl, h404, h200, fetchSpec, St.log, hs]
        · rw [if_neg fun hcc => hs ⟨hcc.1, hcc.2.1⟩]
        · intro h1 h2 _
          exact absurd ⟨h1, h2⟩ hs

/-- C5 witness: a concrete successful fetch with an empty filesystem. -/
theorem c5_download_to_spec_witness :
    ((false : Bool) = true ∨ validCache (fun _ => none) "o" = false)
    ∧ ((download_to ⟨fun _ => DlOutcome.resp 200 "IMG", fun _ _ => SearchOutcome.exn,
          fun _ => JsonOutcome.exn, fun _ => true⟩ ⟨fun _ => none, []⟩ "u" "o" false false).1
        = fetchSpec ((⟨fun _ => DlOutcome.resp 200 "IMG", fun _ _ => SearchOutcome.exn,
            fun _ => JsonOutcome.exn, fun _ => true⟩ : Env).download "u") "o"
            ((⟨fun _ => DlOutcome.resp 200 "IMG", fun _ _ => SearchOutcome.exn,
            fun _ => JsonOutcome.exn, fun _ => true⟩ : Env).writeOk "o")
      ∧ (∀ c : String, (⟨fun _ => DlOutcome.resp 200 "IMG", fun _ _ => SearchOutcome.exn,
            fun _ => JsonOutcome.exn, fun _ => true⟩ : Env).download "u"
            = DlOutcome.resp 200 c → c ≠ "" →
          (⟨fun _ => DlOutcome.resp 200 "IMG", fun _ _ => SearchOutcome.exn,
            fun _ => JsonOutcome.exn, fun _ => true⟩ : Env).writeOk "o" = true →
          (download_to ⟨fun _ => DlOutcome.resp 200 "IMG", fun _ _ => SearchOutcome.exn,
            fun _ => JsonOutcome.exn, fun _ => true⟩ ⟨fun _ => none, []⟩ "u" "o" false
            false).2.fs "o" = some c)
      ∧ ((download_to ⟨fun _ => DlOutcome.resp 200 "IMG", fun _ _ => SearchOutcome.exn,
            fun _ => JsonOutcome.exn, fun _ => true⟩ ⟨fun _ => none, []⟩ "u" "o" false
            false).1 = none →
          (download_to ⟨fun _ => DlOutcome.resp 200 "IMG", fun _ _ => SearchOutcome.exn,
            fun _ => JsonOutcome.exn, fun _ => true⟩ ⟨fun _ => none, []⟩ "u" "o" false
            false).2.fs = (⟨fun _ => none, []⟩ : St).fs)) :=
  ⟨by decide,
   c5_download_to_spec ⟨fun _ => DlOutcome.resp 200 "IMG", fun _ _ => SearchOutcome.exn,
     fun _ => JsonOutcome.exn, fun _ => true⟩ ⟨fun _ => none, []⟩ "u" "o" false false
     (by decide)⟩

/-- C10: an HTTP 200 response with an empty body, in a call that reaches
the network, makes `_download_to` return `None` and leave the filesystem
unchanged — a successful status alone never produces a zero-byte cache
entry. -/
theorem c10_empty_body_is_absent (env : Env) (st : St) (url out : String) (allow fr : Bool)
    (hresp : env.download url = DlOutcome.resp 200 "")
    (h : fr = true ∨ validCache st.fs out = false) :
    (download_to env st url out allow fr).1 = none
    ∧ (download_to env st url out allow fr).2.fs = st.fs := by
  have hcond : (!fr && validCache st.fs out) = false := by
    rcases h with h | h <;> simp [h]
  constructor <;> simp [download_to, hcond, hresp, St.log]

/-- C10 witness: a concrete 200-with-empty-body response. -/
theorem c10_empty_body_is_absent_witness :
    ((⟨fun _ => DlOutcome.resp 200 "", fun _ _ => SearchOutcome.exn,
        fun _ => JsonOutcome.exn, fun _ => true⟩ : Env).download "u" = DlOutcome.resp 200 "")
    ∧ ((false : Bool) = true ∨ validCache (fun _ => none) "o" = false)
    ∧ ((download_to ⟨fun _ => DlOutcome.resp 200 "", fun _ _ => SearchOutcome.exn,
          fun _ => JsonOutcome.exn, fun _ => true⟩ ⟨fun _ => none, []⟩ "u" "o" false false).1
        = none
      ∧ (download_to ⟨fun _ => DlOutcome.resp 200 "", fun _ _ => SearchOutcome.exn,
          fun _ => JsonOutcome.exn, fun _ => true⟩ ⟨fun _ => none, []⟩ "u" "o" false
          false).2.fs = (⟨fun _ => none, []⟩ : St).fs) :=
  ⟨by decide, by decide,
   c10_empty_body_is_absent ⟨fun _ => DlOutcome.resp 200 "", fun _ _ => SearchOutcome.exn,
     fun _ => JsonOutcome.exn, fun _ => true⟩ ⟨fun _ => none, []⟩ "u" "o" false false
     (by decide) (by decide)⟩

/-- C8: the cache path mappers are pure functions of identity and size
class (they are plain Lean functions of those arguments): the three
filename templates hold, identities of different kinds map to different
paths whatever the two size classes, and one identity with two distinct
size classes maps to two distinct paths. -/
theorem c8_cache_path_mapping (cc : CoverCache) (sha1hex : String → String)
    (isbn : String) (cover_id : Int) (title author : String) (s1 s2 : SizeClass) :
    (cc.cache_path_isbn isbn s1.render
        = path_join cc.cache_dir
            ("isbn_" ++ normalize_isbn isbn ++ "_" ++ s1.render ++ ".jpg")
      ∧ cc.cache_path_coverid cover_id s1.render
        = path_join cc.cache_dir
            ("olid_" ++ toString cover_id ++ "_" ++ s1.render ++ ".jpg")
      ∧ cc.cache_path_query sha1hex title author s1.render
        = path_join cc.cache_dir
            ("q_" ++ stable_hash_key sha1hex [title, author] ++ "_" ++ s1.render ++ ".jpg"))
    ∧ (cc.cache_path_isbn isbn s1.render ≠ cc.cache_path_coverid cover_id s2.render
      ∧ cc.cache_path_isbn isbn s1.render
        ≠ cc.cache_path_query sha1hex title author s2.render
      ∧ cc.cache_path_coverid cover_id s1.render
        ≠ cc.cache_path_query sha1hex title author s2.render)
    ∧ (s1 ≠ s2 →
        cc.cache_path_isbn isbn s1.render ≠ cc.cache_path_isbn isbn s2.render
        ∧ cc.cache_path_coverid cover_id s1.render
          ≠ cc.cache_path_coverid cover_id s2.render
        ∧ cc.cache_path_query sha1hex title author s1.render
          ≠ cc.cache_path_query sha1hex title author s2.render) := by
  refine ⟨⟨?_, ?_, ?_⟩, ⟨?_, ?_, ?_⟩, fun hne => ⟨?_, ?_, ?_⟩⟩
  · rw [CoverCache.cache_path_isbn, sizeNorm_render]
  · rw [CoverCache.cache_path_coverid, sizeNorm_render]
  · rw [CoverCache.cache_path_query, sizeNorm_render]
  · intro he
    have h1 := path_join_cancel _ _ _ he
    simp only [String.append_assoc] at h1
    exact isbn_olid_ne _ _ h1
  · intro he
    have h1 := path_join_cancel _ _ _ he
    simp only [String.append_assoc] at h1
    exact isbn_q_ne _ _ h1
  · intro he
    have h1 := path_join_cancel _ _ _ he
    simp only [String.append_assoc] at h1
    exact olid_q_ne _ _ h1
  · rw [CoverCache.cache_path_isbn, CoverCache.cache_path_isbn,
      sizeNorm_render, sizeNorm_render]
    apply path_ne_of_fname_ne
    simp only [String.append_assoc]
    exact tmpl_size_ne _ _ (render_suffix_ne s1 s2 hne)
  · rw [CoverCache.cache_path_coverid, CoverCache.cache_path_coverid,
      sizeNorm_render, sizeNorm_render]
    apply path_ne_of_fname_ne
    simp only [String.append_assoc]
    exact tmpl_size_ne _ _ (render_suffix_ne s1 s2 hne)
  · rw [CoverCache.cache_path_query, CoverCache.cache_path_query,
      sizeNorm_render, sizeNorm_render]
    apply path_ne_of_fname_ne
    simp only [String.append_assoc]
    exact tmpl_size_ne _ _ (render_suffix_ne s1 s2 hne)

/-- C8 witness: the mapping facts instantiated at one concrete cache
configuration, identity of each kind, and the distinct size classes `S`
and `M`. -/
theorem c8_cache_path_mapping_witness :
    SizeClass.S ≠ SizeClass.M
    ∧ (({ cache_dir := "cache" } : CoverCache).cache_path_isbn "9780140449136" SizeClass.S.render
          = path_join "cache"
              ("isbn_" ++ normalize_isbn "9780140449136" ++ "_" ++ SizeClass.S.render ++ ".jpg")
        ∧ ({ cache_dir := "cache" } : CoverCache).cache_path_coverid 258027 SizeClass.S.render
          = path_join "cache"
              ("olid_" ++ toString (258027 : Int) ++ "_" ++ SizeClass.S.render ++ ".jpg")
        ∧ ({ cache_dir := "cache" } : CoverCache).cache_path_query (fun _ => "abcdef") "Dune"
            "Frank Herbert" SizeClass.S.render
          = path_join "cache"
              ("q_" ++ stable_hash_key (fun _ => "abcdef") ["Dune", "Frank Herbert"]
                ++ "_" ++ SizeClass.S.render ++ ".jpg"))
      ∧ (({ cache_dir := "cache" } : CoverCache).cache_path_isbn "9780140449136" SizeClass.S.render
          ≠ ({ cache_dir := "cache" } : CoverCache).cache_path_coverid 258027 SizeClass.M.render
        ∧ ({ cache_dir := "cache" } : CoverCache).cache_path_isbn "9780140449136" SizeClass.S.render
          ≠ ({ cache_dir := "cache" } : CoverCache).cache_path_query (fun _ => "abcdef") "Dune"
              "Frank Herbert" SizeClass.M.render
        ∧ ({ cache_dir := "cache" } : CoverCache).cache_path_coverid 258027 SizeClass.S.render
          ≠ ({ cache_dir := "cache" } : CoverCache).cache_path_query (fun _ => "abcdef") "Dune"
              "Frank Herbert" SizeClass.M.render)
      ∧ (SizeClass.S ≠ SizeClass.M →
          ({ cache_dir := "cache" } : CoverCache).cache_path_isbn "9780140449136" SizeClass.S.render
            ≠ ({ cache_dir := "cache" } : CoverCache).cache_path_isbn "9780140449136"
                SizeClass.M.render
          ∧ ({ cache_dir := "cache" } : CoverCache).cache_path_coverid 258027 SizeClass.S.render
            ≠ ({ cache_dir := "cache" } : CoverCache).cache_path_coverid 258027 SizeClass.M.render
          ∧ ({ cache_dir := "cache" } : CoverCache).cache_path_query (fun _ => "abcdef") "Dune"
              "Frank Herbert" SizeClass.S.render
            ≠ ({ cache_dir := "cache" } : CoverCache).cache_path_query (fun _ => "abcdef") "Dune"
                "Frank Herbert" SizeClass.M.render) :=
  ⟨by decide,
   c8_cache_path_mapping { cache_dir := "cache" } (fun _ => "abcdef") "9780140449136" 258027
     "Dune" "Frank Herbert" SizeClass.S SizeClass.M⟩

end BookStats
